import Mathlib

/-!
Shallow embedding of the `hugo.py` line-oriented script interpreter
(classes `Lexer`, `Error`, `Interpreter` and the `run` loop), together
with theorems settling the specification claims.

Python strings are modelled as `List Char`; Python `dict` as an
insertion-ordered association list; Python `int` as `Int` (arbitrary
precision, no overflow); raised exceptions as `Except` values.  The
`Stack` class of the source is used only through `push`/`pop`/`top`/
emptiness, so it is modelled by a Lean list whose head is the stack top.
-/

set_option linter.unusedVariables false
set_option linter.unusedTactic false

abbrev Chars := List Char

/-- Python `str.isspace` characters relevant to `str.strip()`. -/
def pySpace (c : Char) : Bool :=
  c = ' ' || c = '\t' || c = '\n' || c = '\r' || c = '\x0b' || c = '\x0c'

def dropLastWhile (p : Char → Bool) (l : List Char) : List Char :=
  (l.reverse.dropWhile p).reverse

/-- Python `str.strip()`. -/
def pyStrip (l : List Char) : List Char :=
  dropLastWhile pySpace (l.dropWhile pySpace)

/-- Python `str.split(sep)` for a one-character separator: keeps empty pieces. -/
def pySplit (sep : Char) : List Char → List (List Char)
  | [] => [[]]
  | c :: rest =>
    match pySplit sep rest with
    | [] => [[]]
    | h :: t => if c = sep then [] :: h :: t else (c :: h) :: t

/-- Python `str.upper()` (ASCII, which is all the interpreter uses). -/
def pyUpper (l : List Char) : List Char := l.map Char.toUpper

/-- Python `dict` lookup on an insertion-ordered association list. -/
def dictGet? {V : Type} : List (Chars × V) → Chars → Option V
  | [], _ => none
  | (k', v) :: rest, k => if k' = k then some v else dictGet? rest k

/-- Python `dict` store: overwrite in place if present, else append. -/
def dictSet {V : Type} : List (Chars × V) → Chars → V → List (Chars × V)
  | [], k, v => [(k, v)]
  | (k', v') :: rest, k, v =>
    if k' = k then (k, v) :: rest else (k', v') :: dictSet rest k v

/-- Digit workhorse for `natDigs`, structurally recursive on a fuel
bound so that it computes by reduction; `natDigs` always supplies enough
fuel. -/
def digsGo : Nat → Nat → List Char
  | 0, _ => []
  | fuel + 1, n =>
    if n < 10 then [Char.ofNat (48 + n)]
    else digsGo fuel (n / 10) ++ [Char.ofNat (48 + n % 10)]

/-- Decimal digits of a natural number, most significant first
(the digit sequence produced by Python `str` on a non-negative int). -/
def natDigs (n : Nat) : List Char := digsGo (n + 1) n

def digVal? (c : Char) : Option Nat :=
  if c.isDigit then some (c.toNat - 48) else none

def readNatAux (acc : Option Nat) (c : Char) : Option Nat :=
  match acc, digVal? c with
  | some a, some d => some (a * 10 + d)
  | _, _ => none

/-- Read an unsigned decimal numeral; `none` unless the list is a
non-empty string of digits. -/
def readNat (l : List Char) : Option Nat :=
  if l.isEmpty then none else l.foldl readNatAux (some 0)

/-- Python `int(string)`: surrounding whitespace allowed, optional sign,
then decimal digits; anything else raises `ValueError` (here `none`). -/
def pyInt? (l : List Char) : Option Int :=
  let t := pyStrip l
  if t.headD ' ' = '-' then (readNat t.tail).map (fun n => -(n : Int))
  else if t.headD ' ' = '+' then (readNat t.tail).map (fun n => (n : Int))
  else (readNat t).map (fun n => (n : Int))

/-- Python `str` of an int. -/
def pyStrInt (n : Int) : List Char :=
  if n < 0 then '-' :: natDigs (-n).toNat else natDigs n.toNat

/-- Python list indexing `l[i]` with negative-index wrap-around;
`none` models an uncaught `IndexError`. -/
def pyIndexGet (l : List (List Char)) (i : Int) : Option (List Char) :=
  if 0 ≤ i then l.get? i.toNat
  else if 0 ≤ (l.length : Int) + i then l.get? ((l.length : Int) + i).toNat
  else none

/-- `expr.replace(' mod ', ' % ')` from `Interpreter.evaluate`:
left-to-right, non-overlapping replacement of every occurrence. -/
def pyReplaceMod : List Char → List Char
  | [] => []
  | ' ' :: 'm' :: 'o' :: 'd' :: ' ' :: rest => ' ' :: '%' :: ' ' :: pyReplaceMod rest
  | c :: rest => c :: pyReplaceMod rest

/-- A Python runtime value of the kinds the interpreter's expressions
produce: int, bool, str, or a built-in function object. -/
inductive PyVal
  | int (n : Int)
  | bool (b : Bool)
  | str (s : List Char)
  | func (f : String)
deriving DecidableEq, Repr

/-- Python `bool(...)` truthiness. -/
def pyTruthy : PyVal → Bool
  | .int n => n ≠ 0
  | .bool b => b
  | .str s => !s.isEmpty
  | .func _ => true

/-- Python `str(...)`. -/
def pyStrOf : PyVal → List Char
  | .int n => pyStrInt n
  | .bool b => if b then "True".toList else "False".toList
  | .str s => s
  | .func f => ("<built-in function " ++ f ++ ">").toList

/-- The source's `Error` class; the constructor stores `line + 1`
(1-based line, `Err.make`). -/
structure Err where
  line : Nat
  msg : String
deriving DecidableEq, Repr

/-- Mirrors `Error.__init__`: `self.line = line + 1`. -/
def Err.make (line : Nat) (msg : String) : Err := ⟨line + 1, msg⟩

/-- An exception escaping a piece of interpreter code: a raised `Error`,
some other (uncaught) Python exception, or `sys.exit`. -/
inductive Exc
  | hugo (e : Err)
  | host (msg : String)
  | systemExit (code : Int)
deriving DecidableEq, Repr

instance {e a : Type} [DecidableEq e] [DecidableEq a] : DecidableEq (Except e a) := fun x y =>
  match x, y with
  | .ok u, .ok v =>
    if h : u = v then isTrue (by rw [h]) else isFalse (fun hh => h (Except.ok.inj hh))
  | .error u, .error v =>
    if h : u = v then isTrue (by rw [h]) else isFalse (fun hh => h (Except.error.inj hh))
  | .ok _, .error _ => isFalse (fun hh => Except.noConfusion hh)
  | .error _, .ok _ => isFalse (fun hh => Except.noConfusion hh)

/-- The names `Interpreter.evaluate` passes to `eval` as globals:
`{'abs': abs, 'min': min, 'max': max}`. -/
def allowedNames : List String := ["abs", "min", "max"]

/-- CPython `eval(expr, globals)` inserts a reference to the `builtins`
module under `'__builtins__'` whenever the supplied globals mapping lacks
that key (Python Library Reference, `eval`).  `allowed_objects` lacks it,
so every built-in name resolves inside `evaluate`; this list is a
representative subset of those built-ins sufficient for the programs
verified here. -/
def builtinNames : List String := ["len"]

/-- Name resolution inside `eval(expr, allowed_objects)`: the supplied
globals first, then the auto-inserted `__builtins__`; unknown names raise
`NameError`. -/
def resolveName (n : String) : Except Exc PyVal :=
  if n ∈ allowedNames then .ok (.func n)
  else if n ∈ builtinNames then .ok (.func n)
  else .error (.host "NameError")

def applyFunc (f : String) (args : List PyVal) : Except Exc PyVal :=
  match f, args with
  | "abs", [.int n] => .ok (.int (if n < 0 then -n else n))
  | "min", [.int a, .int b] => .ok (.int (min a b))
  | "max", [.int a, .int b] => .ok (.int (max a b))
  | "len", [.str s] => .ok (.int s.length)
  | _, _ => .error (.host "TypeError")

def identChar (c : Char) : Bool := c.isAlpha || c.isDigit || c = '_'

mutual

/-- Recursive-descent model of the host `eval` on the expression fragment
the verified programs exercise: integer literals, unary minus,
single-quoted string literals, and name/call resolution as in
`resolveName`.  Fuel bounds the nesting depth. -/
def parseExpr : Nat → List Char → Except Exc (PyVal × List Char)
  | 0, _ => .error (.host "SyntaxError")
  | fuel + 1, cs =>
    match cs.dropWhile (· = ' ') with
    | [] => .error (.host "SyntaxError")
    | c :: rest =>
      if c.isDigit then
        match readNat ((c :: rest).takeWhile Char.isDigit) with
        | some n => .ok (.int n, (c :: rest).dropWhile Char.isDigit)
        | none => .error (.host "SyntaxError")
      else if c = '-' then
        match parseExpr fuel rest with
        | .ok (.int n, rem) => .ok (.int (-n), rem)
        | .ok _ => .error (.host "TypeError")
        | .error e => .error e
      else if c = '\'' then
        match rest.dropWhile (· ≠ '\'') with
        | '\'' :: rem => .ok (.str (rest.takeWhile (· ≠ '\'')), rem)
        | _ => .error (.host "SyntaxError")
      else if c.isAlpha || c = '_' then
        let nm := (c :: rest).takeWhile identChar
        match ((c :: rest).dropWhile identChar).dropWhile (· = ' ') with
        | '(' :: rem2 =>
          match parseArgs fuel rem2 with
          | .ok (args, rem3) =>
            match resolveName (String.mk nm) with
            | .ok (.func f) => (applyFunc f args).map (fun v => (v, rem3))
            | .ok _ => .error (.host "TypeError")
            | .error e => .error e
          | .error e => .error e
        | rem => (resolveName (String.mk nm)).map (fun v => (v, rem))
      else .error (.host "SyntaxError")

def parseArgs : Nat → List Char → Except Exc (List PyVal × List Char)
  | 0, _ => .error (.host "SyntaxError")
  | fuel + 1, cs =>
    match parseExpr fuel cs with
    | .error e => .error e
    | .ok (v, rem) =>
      match rem.dropWhile (· = ' ') with
      | ')' :: rem2 => .ok ([v], rem2)
      | ',' :: rem2 =>
        match parseArgs fuel rem2 with
        | .ok (vs, rem3) => .ok (v :: vs, rem3)
        | .error e => .error e
      | _ => .error (.host "SyntaxError")

end

/-- `Interpreter.evaluate`: rewrite `' mod '` to `' % '`, then hand the
text to the host `eval` under `allowed_objects` (modelled by
`parseExpr`/`resolveName`). -/
def evaluate (expr : List Char) : Except Exc PyVal :=
  let expr2 := pyReplaceMod expr
  match parseExpr (expr2.length + 1) expr2 with
  | .ok (v, rem) =>
    if rem.dropWhile (· = ' ') = [] then .ok v else .error (.host "SyntaxError")
  | .error e => .error e

/-- `Lexer.pairs`. -/
def bracketPairs : List (Char × Char) := [('(', ')'), ('[', ']'), ('{', '}')]

/-- `Lexer.is_closed`. -/
def is_closed (token : List Char) : Bool :=
  bracketPairs.all fun p => token.count p.1 = token.count p.2

/-- One character of `Lexer.tokenize`'s loop; state is
`(result, token, in_string)`. -/
def tokenizeStep (st : List (List Char) × List Char × Bool) (c : Char) :
    List (List Char) × List Char × Bool :=
  let (result, token, inStr) := st
  if c = '"' then
    if inStr then (result ++ [pyStrip token], [], false)
    else (result, token, true)
  else if inStr then (result, token ++ [c], true)
  else if c = ',' ∧ is_closed token = true then (result ++ [pyStrip token], [], false)
  else (result, token ++ [c], false)

/-- `Lexer.tokenize`. -/
def tokenize (line : List Char) : List (List Char) :=
  match line.foldl tokenizeStep ([], [], false) with
  | (result, token, _) =>
    if token.isEmpty then result else result ++ [pyStrip token]

/-- `Interpreter.var_end_table`. -/
def var_end_table : List Char :=
  [' ', '\n', '\t', '\r', ',', '+', '-', '*', '/', '%', '$']

/-- The character loop of `Interpreter.replace_marco`; state is
`(macOn, macName, result)` for the source's
`(in_macro, macro_name, result)`.  The `try`/`except KeyError`/`finally`
of the source: an undefined variable is skipped silently, the
out-of-range array subscript raises `Error`, and the delimiter character
is appended to the output in every non-raising case. -/
def rmAux (vt : List (Chars × Chars)) (line_cnt : Nat) :
    List Char → Bool → List Char → List Char → Except Exc (List Char)
  | [], _, _, result => .ok result
  | c :: rest, macOn, macName, result =>
    if macOn = false ∧ c = '$' then rmAux vt line_cnt rest true macName result
    else if macOn = true ∧ c ∈ var_end_table then
      match pySplit ':' macName with
      | [] => .error (.host "unreachable")
      | [single] =>
        match dictGet? vt single with
        | some v => rmAux vt line_cnt rest false [] (result ++ v ++ [c])
        | none => rmAux vt line_cnt rest false [] (result ++ [c])
      | head :: idxStr :: _ =>
        match pyInt? idxStr with
        | none => .error (.host "ValueError")
        | some cnt =>
          match dictGet? vt head with
          | none => rmAux vt line_cnt rest false [] (result ++ [c])
          | some v =>
            let array := pySplit ' ' v
            if (array.length : Int) ≤ cnt then
              .error (.hugo (Err.make line_cnt "array subscript over-bounded"))
            else
              match pyIndexGet array cnt with
              | some el => rmAux vt line_cnt rest false [] (result ++ el ++ [c])
              | none => .error (.host "IndexError")
    else if macOn then rmAux vt line_cnt rest true (macName ++ [c]) result
    else rmAux vt line_cnt rest false macName (result ++ [c])

/-- `Interpreter.replace_marco`. -/
def replace_marco (vt : List (Chars × Chars)) (line_cnt : Nat)
    (line : List Char) : Except Exc (List Char) :=
  let line2 := if line.getLast? = some '\n' then line else line ++ ['\n']
  (rmAux vt line_cnt line2 false [] []).map pyStrip

/-- `Interpreter.parse_command`. -/
def parse_command (vt : List (Chars × Chars)) (line_cnt : Nat)
    (line : List Char) : Except Exc (List Char × List (List Char)) :=
  (replace_marco vt line_cnt line).map fun line2 =>
    match pySplit ' ' line2 with
    | cmd :: args =>
      (pyStrip (pyUpper cmd), (tokenize (List.intercalate [' '] args)).map pyStrip)
    | [] => ([], [])

/-- Observation events for reasoning about a run; they record when a
condition expression is actually evaluated and when a command reaches the
dispatcher.  Events never influence the transitions. -/
inductive Event
  | ifEval (line : Nat) (truth : Bool)
  | whileEval (line : Nat) (truth : Bool)
  | elseEval (line : Nat) (truth : Bool)
  | dispatched (line : Nat) (cmd : List Char)
deriving DecidableEq, Repr

/-- The mutable state of one `Interpreter` object, plus the `result`
local of `run` (it persists across loop iterations, which is what the
`ELSE IF` branch reads when the popped entry was true), the console
output and the pending stdin lines. -/
structure St where
  var_table : List (Chars × Chars)
  label_table : List (Chars × Nat)
  call_stack : List Nat
  goto_stack : List Nat
  if_stack : List Bool
  while_stack : List (Bool × Nat)
  while_lines : List Nat
  result : Option PyVal
  output : List Char
  stdin : List (List Char)
deriving DecidableEq, Repr

/-- `Interpreter.exec_set`: each argument is split on `'='` into exactly
two pieces (otherwise the unpacking raises `ValueError`), both stripped. -/
def exec_set (st : St) (args : List (List Char)) : Except Exc St :=
  args.foldlM
    (fun st arg =>
      match pySplit '=' arg with
      | [k, v] => .ok { st with var_table := dictSet st.var_table (pyStrip k) (pyStrip v) }
      | _ => .error (.host "ValueError"))
    st

/-- `Interpreter.exec_let`. -/
def exec_let (st : St) (args : List (List Char)) : Except Exc St :=
  args.foldlM
    (fun st arg =>
      match pySplit '=' arg with
      | [k, e] =>
        match evaluate (pyStrip e) with
        | .ok v =>
          .ok { st with var_table := dictSet st.var_table (pyStrip k) (pyStrip (pyStrOf v)) }
        | .error exc => .error exc
      | _ => .error (.host "ValueError"))
    st

/-- `Interpreter.exec_input`: one stdin line per key, stripped. -/
def exec_input (st : St) (args : List (List Char)) : Except Exc St :=
  args.foldlM
    (fun st key =>
      match st.stdin with
      | [] => .error (.host "EOFError")
      | s :: rest =>
        .ok { st with var_table := dictSet st.var_table key (pyStrip s), stdin := rest })
    st

/-- `Interpreter.exec_inc`: undefined key is seeded with `"1"` (the
`except KeyError` branch); a non-numeric value raises `ValueError`. -/
def exec_inc (st : St) (args : List (List Char)) : Except Exc St :=
  match args with
  | [] => .error (.host "IndexError")
  | key :: _ =>
    match dictGet? st.var_table key with
    | none => .ok { st with var_table := dictSet st.var_table key ['1'] }
    | some v =>
      match pyInt? v with
      | none => .error (.host "ValueError")
      | some n => .ok { st with var_table := dictSet st.var_table key (pyStrInt (n + 1)) }

/-- `Interpreter.exec_dec`: undefined key is seeded with `"-1"`. -/
def exec_dec (st : St) (args : List (List Char)) : Except Exc St :=
  match args with
  | [] => .error (.host "IndexError")
  | key :: _ =>
    match dictGet? st.var_table key with
    | none => .ok { st with var_table := dictSet st.var_table key ['-', '1'] }
    | some v =>
      match pyInt? v with
      | none => .error (.host "ValueError")
      | some n => .ok { st with var_table := dictSet st.var_table key (pyStrInt (n - 1)) }

/-- `Interpreter.exec_swap`: the right-hand tuple is evaluated first
(`var[key2]` then `var[key1]`; a missing key raises an uncaught
`KeyError`), then the two assignments happen left to right. -/
def exec_swap (st : St) (args : List (List Char)) : Except Exc St :=
  match args with
  | key1 :: key2 :: _ =>
    match dictGet? st.var_table key2 with
    | none => .error (.host "KeyError")
    | some v2 =>
      match dictGet? st.var_table key1 with
      | none => .error (.host "KeyError")
      | some v1 =>
        .ok { st with var_table := dictSet (dictSet st.var_table key1 v2) key2 v1 }
  | _ => .error (.host "IndexError")

/-- `Interpreter.exec_goto`: unknown label raises
`Error(line_cnt, 'unknown label <name>')`; a missing argument is an
uncaught `IndexError` (the `except` clause only catches `KeyError`). -/
def exec_goto (st : St) (args : List (List Char)) (line_cnt : Nat) : Except Exc St :=
  match args with
  | [] => .error (.host "IndexError")
  | name :: _ =>
    match dictGet? st.label_table name with
    | none => .error (.hugo (Err.make line_cnt ("unknown label " ++ String.mk name)))
    | some l => .ok { st with goto_stack := l :: st.goto_stack }

/-- `Interpreter.exec_call`: push the jump target on the goto stack and
`line_cnt + 1` on the call stack. -/
def exec_call (st : St) (args : List (List Char)) (line_cnt : Nat) : Except Exc St :=
  match args with
  | [] => .error (.host "IndexError")
  | name :: _ =>
    match dictGet? st.label_table name with
    | none => .error (.hugo (Err.make line_cnt ("unknown label " ++ String.mk name)))
    | some l =>
      .ok { st with goto_stack := l :: st.goto_stack, call_stack := (line_cnt + 1) :: st.call_stack }

/-- `Interpreter.exec_return`: pending jump to the `EOF` label. -/
def exec_return (st : St) : Except Exc St :=
  match dictGet? st.label_table "EOF".toList with
  | none => .error (.host "KeyError")
  | some l => .ok { st with goto_stack := l :: st.goto_stack }

/-- `Interpreter.exec_print`: each argument followed by `' '`, no line
break. -/
def exec_print (st : St) (args : List (List Char)) : St :=
  { st with output := st.output ++ (args.map (· ++ [' '])).flatten }

/-- `Interpreter.exec_echo`: `exec_print` then a newline. -/
def exec_echo (st : St) (args : List (List Char)) : St :=
  let st := exec_print st args
  { st with output := st.output ++ ['\n'] }

/-- `Interpreter.exec_pause`: `input('...')` writes the prompt and blocks
for one stdin line (discarded); end of input raises `EOFError`. -/
def exec_pause (st : St) (args : List (List Char)) : Except Exc St :=
  match st.stdin with
  | [] => .error (.host "EOFError")
  | _ :: rest => .ok { st with output := st.output ++ "...".toList, stdin := rest }

/-- `Interpreter.exec_command`: the dispatcher's `if`/`elif` chain; any
unmatched command name falls through, and the function always returns
status `0`. -/
def exec_command (st : St) (line_cnt : Nat) (cmd : List Char)
    (args : List (List Char)) : Except Exc (St × Int) :=
  if cmd = "PAUSE".toList then (exec_pause st args).map (·, 0)
  else if cmd = "ECHO".toList then .ok (exec_echo st args, 0)
  else if cmd = "PRINT".toList then .ok (exec_print st args, 0)
  else if cmd = "SET".toList then (exec_set st args).map (·, 0)
  else if cmd = "LET".toList then (exec_let st args).map (·, 0)
  else if cmd = "INPUT".toList then (exec_input st args).map (·, 0)
  else if cmd = "INC".toList then (exec_inc st args).map (·, 0)
  else if cmd = "DEC".toList then (exec_dec st args).map (·, 0)
  else if cmd = "SWAP".toList then (exec_swap st args).map (·, 0)
  else if cmd = "GOTO".toList then (exec_goto st args line_cnt).map (·, 0)
  else if cmd = "CALL".toList then (exec_call st args line_cnt).map (·, 0)
  else if cmd = "RETURN".toList then (exec_return st).map (·, 0)
  else if cmd = "EXIT".toList then .error (.systemExit 0)
  else .ok (st, 0)

/-- The synthetic back-jump label `'__while_label_%d__' % i`. -/
def wlabel (i : Nat) : List Char :=
  "__while_label_".toList ++ natDigs i ++ "__".toList

/-- Result of executing one line of the `run` loop. -/
inductive StepRes
  | next (st : St) (i : Nat) (tr : List Event)
  | exited (code : Int) (st : St)
  | errored (e : Err)
  | crashed (msg : String)
deriving DecidableEq, Repr

def liftExc (e : Exc) : StepRes :=
  match e with
  | .hugo err => .errored err
  | .host msg => .crashed msg
  | .systemExit c => .crashed "SystemExit"

/-- The `END` branch of `run`. -/
def directiveEND (st : St) (i : Nat) : StepRes :=
  match st.if_stack with
  | _ :: rest => .next { st with if_stack := rest } (i + 1) []
  | [] => .errored (Err.make i "extra END")

/-- The `WEND` branch of `run`: pop, fall through if the stored condition
was false, else jump back via the synthetic label. -/
def directiveWEND (st : St) (i : Nat) : StepRes :=
  match st.while_stack with
  | [] => .errored (Err.make i "extra WEND")
  | (b, w) :: rest =>
    if !b then .next { st with while_stack := rest } (i + 1) []
    else
      match dictGet? st.label_table (wlabel w) with
      | some j => .next { st with while_stack := rest } j []
      | none => .crashed "KeyError"

/-- The `WHILE` branch of `run`: lazily register the back-jump label,
set the shared `result` local to `False`, evaluate the condition only
when the while stack is empty or its top entry is true, and push
`(bool(result), i)`. -/
def directiveWHILE (st : St) (i : Nat) (args : List (List Char)) : StepRes :=
  let st :=
    if i ∈ st.while_lines then st
    else { st with label_table := dictSet st.label_table (wlabel i) i,
                   while_lines := i :: st.while_lines }
  let st := { st with result := some (.bool false) }
  if st.while_stack = [] ∨ (st.while_stack.headD (false, 0)).1 then
    match args with
    | [] => .crashed "IndexError"
    | a :: _ =>
      match evaluate a with
      | .error e => liftExc e
      | .ok v =>
        .next { st with result := some v,
                        while_stack := (pyTruthy v, i) :: st.while_stack }
          (i + 1) [.whileEval i (pyTruthy v)]
  else
    .next { st with while_stack := (false, i) :: st.while_stack } (i + 1) []

/-- The `IF` branch of `run`: evaluate the condition only when the if
stack is empty or its top entry is true, and push `bool(result)`. -/
def directiveIF (st : St) (i : Nat) (args : List (List Char)) : StepRes :=
  let st := { st with result := some (.bool false) }
  if st.if_stack = [] ∨ st.if_stack.headD false then
    match args with
    | [] => .crashed "IndexError"
    | a :: _ =>
      match evaluate a with
      | .error e => liftExc e
      | .ok v =>
        .next { st with result := some v, if_stack := pyTruthy v :: st.if_stack }
          (i + 1) [.ifEval i (pyTruthy v)]
  else
    .next { st with if_stack := false :: st.if_stack } (i + 1) []

/-- The `ELSE` branch of `run`.  The else-if sub-branch fires only when
the first token equals `IF` after upper-casing; it evaluates its
condition only when the popped entry was false, otherwise it pushes
`bool(result)` with `result` still holding whatever an earlier `IF` /
`WHILE` / `ELSE IF` evaluation left in the shared local. -/
def directiveELSE (st : St) (i : Nat) (args : List (List Char)) : StepRes :=
  match st.if_stack with
  | [] => .errored (Err.make i "ELSE without IF")
  | top :: rest =>
    if args ≠ [] ∧ pyUpper (args.headD []) = "IF".toList then
      if !top then
        match args with
        | _ :: a :: _ =>
          match evaluate a with
          | .error e => liftExc e
          | .ok v =>
            .next { st with result := some v, if_stack := pyTruthy v :: rest }
              (i + 1) [.elseEval i (pyTruthy v)]
        | _ => .crashed "IndexError"
      else
        match st.result with
        | some v => .next { st with if_stack := pyTruthy v :: rest } (i + 1) []
        | none => .crashed "UnboundLocalError"
    else
      .next { st with if_stack := (!top) :: rest } (i + 1) []

/-- Lines 351-359 of `run`: dispatch the command, store its status into
`ERRORLEVEL` through the `SET` path, advance the pointer, apply a pending
jump, and pop a return address when the pointer has left the program with
a non-empty call stack. -/
def execStep (prog : List (List Char)) (st : St) (i : Nat) (cmd : List Char)
    (args : List (List Char)) : StepRes :=
  match exec_command st i cmd args with
  | .error (.systemExit c) => .exited c st
  | .error e => liftExc e
  | .ok (st1, ret) =>
    match exec_command st1 i "SET".toList ["ERRORLEVEL=".toList ++ pyStrInt ret] with
    | .error e => liftExc e
    | .ok (st2, _) =>
      let j := st2.goto_stack.headD (i + 1)
      let st3 := { st2 with goto_stack := st2.goto_stack.tail }
      if prog.length ≤ j then
        match st3.call_stack with
        | r :: rest => .next { st3 with call_stack := rest } r [.dispatched i cmd]
        | [] => .next st3 j [.dispatched i cmd]
      else .next st3 j [.dispatched i cmd]

/-- One iteration of the `while i < len(self.program)` loop of
`Interpreter.run`, at instruction pointer `i < prog.length`. -/
def stepLine (prog : List (List Char)) (st : St) (i : Nat) : StepRes :=
  match prog.get? i with
  | none => .crashed "IndexError"
  | some raw =>
    let line := pyStrip raw
    if line.isEmpty = true ∨ line.headD ' ' = '#' then .next st (i + 1) []
    else
      match parse_command st.var_table i line with
      | .error e => liftExc e
      | .ok (cmd, args) =>
        if cmd = "END".toList then directiveEND st i
        else if cmd = "WEND".toList then directiveWEND st i
        else if cmd = "WHILE".toList then directiveWHILE st i args
        else if cmd = "IF".toList then directiveIF st i args
        else if cmd = "ELSE".toList then directiveELSE st i args
        else if (st.while_stack.headD (true, 0)).1 = false then .next st (i + 1) []
        else if st.if_stack.headD true = false then .next st (i + 1) []
        else execStep prog st i cmd args

/-- Possible outcomes of a complete run. -/
inductive Outcome
  | normal (st : St)
  | exited (code : Int) (st : St)
  | errored (e : Err)
  | crashed (msg : String)
deriving DecidableEq, Repr

/-- Fuel-bounded `Interpreter.run`: the loop ends normally as soon as the
pointer reaches or exceeds the program length (the call-stack pop of line
358 lives inside `execStep`, not here, exactly as in the source); `none`
means the fuel ran out before the program did. -/
def runFuel (prog : List (List Char)) : Nat → St → Nat → Option (Outcome × List Event)
  | 0, _, _ => none
  | fuel + 1, st, i =>
    if i < prog.length then
      match stepLine prog st i with
      | .next st' i' tr => (runFuel prog fuel st' i').map fun (o, tr') => (o, tr ++ tr')
      | .exited c st' => some (.exited c st', [])
      | .errored e => some (.errored e, [])
      | .crashed m => some (.crashed m, [])
    else some (.normal st, [])

/-- The label pass of `Interpreter.load` over an already-split line list
(the file reading itself is the out-of-scope collaborator): a line whose
stripped form starts with `':'` maps its stripped remainder to the line
index, and `'EOF'` maps to the line count. -/
def loadLabels (program : List (List Char)) : List (Chars × Nat) :=
  let tbl := (List.range program.length).foldl
    (fun acc i =>
      match program.get? i with
      | some line =>
        match pyStrip line with
        | ':' :: rest => dictSet acc (pyStrip rest) i
        | _ => acc
      | none => acc)
    []
  dictSet tbl "EOF".toList program.length

/-- A freshly constructed `Interpreter` after `load`, about to `run`. -/
def initSt (program : List (List Char)) (stdin : List (List Char)) : St :=
  { var_table := [], label_table := loadLabels program, call_stack := [],
    goto_stack := [], if_stack := [], while_stack := [], while_lines := [],
    result := none, output := [], stdin := stdin }

/-- `"$arr:idx$"`-style test program pieces and the concrete programs the
claim theorems run.  Program text is supplied as the list of line strings
the out-of-scope loader would produce. -/
def progC1a : List Chars := ["IF 0".toList, "WHILE 1".toList]

def progC1b : List Chars :=
  ["IF 0".toList, "WHILE 1".toList, "WEND".toList, "END".toList]

def progC2a : List Chars := ["IF 1".toList, "ELSE IF, 1".toList]

def progC2b : List Chars := ["IF 0".toList, "ELSE IF 0".toList]

def progC4cx : List Chars :=
  ["CALL s".toList, "SET a=1".toList, ":s".toList, "# end".toList]

def progC4nest : List Chars :=
  ["CALL a".toList, "SET x=1".toList, "EXIT".toList,
   ":a".toList, "CALL b".toList, "SET y=1".toList, "RETURN".toList,
   ":b".toList, "SET z=1".toList, "RETURN".toList]

def progC10 : List Chars :=
  ["CALL s".toList, "SET a=1".toList, ":s".toList, "FOO".toList]

/-- The state `run` reaches on `progC10` when the pointer arrives at the
final (unrecognized) line `FOO` with the `CALL`'s return address pending. -/
def stC10 : St :=
  { var_table := [("ERRORLEVEL".toList, ['0'])],
    label_table := [("s".toList, 2), ("EOF".toList, 4)],
    call_stack := [1], goto_stack := [], if_stack := [], while_stack := [],
    while_lines := [], result := none, output := [], stdin := [] }

/-- The loop-family program for the `WHILE`/`WEND` iteration-count claim:
a counter started at `N` is decremented until the condition `$c` becomes
falsy. -/
def progC5 (N : Nat) : List Chars :=
  ["SET c=".toList ++ natDigs N, "WHILE $c".toList, "DEC c".toList, "WEND".toList]

/-- `progC5`'s label table after the back-jump label registration. -/
def c5LT : List (Chars × Nat) := [("EOF".toList, 4), (wlabel 1, 1)]

/-- The `progC5` interpreter state at the top of the loop with counter
value `k`: `r` is whatever the shared `result` local currently holds, and
`lt`/`wl` the label table and registered `WHILE` lines. -/
def c5St (k : Nat) (r : Option PyVal) (lt : List (Chars × Nat)) (wl : List Nat) : St :=
  { var_table := [("c".toList, natDigs k), ("ERRORLEVEL".toList, ['0'])],
    label_table := lt, call_stack := [], goto_stack := [], if_stack := [],
    while_stack := [], while_lines := wl, result := r, output := [], stdin := [] }

/-- The event trace produced by `k` remaining iterations of `progC5`'s
loop: `k` truthy condition evaluations each followed by a dispatched body
line, then the final falsy evaluation. -/
def c5Trace (k : Nat) : List Event :=
  (List.replicate k [Event.whileEval 1 true, Event.dispatched 2 "DEC".toList]).flatten
    ++ [Event.whileEval 1 false]

/-- Is this event a `WHILE`/`IF`-condition evaluation at line `w`? -/
def isCondEvalAt (w : Nat) : Event → Bool
  | .whileEval l _ => l == w
  | .ifEval l _ => l == w
  | .elseEval l _ => l == w
  | .dispatched _ _ => false

/-- Is this event a command dispatch at line `w`? -/
def isDispatchedAt (w : Nat) : Event → Bool
  | .dispatched l _ => l == w
  | _ => false

/-- The thirteen dispatcher commands and five structural directives. -/
def knownCommands : List Chars :=
  ["PAUSE".toList, "ECHO".toList, "PRINT".toList, "SET".toList, "LET".toList,
   "INPUT".toList, "INC".toList, "DEC".toList, "SWAP".toList, "GOTO".toList,
   "CALL".toList, "RETURN".toList, "EXIT".toList,
   "END".toList, "WEND".toList, "WHILE".toList, "IF".toList, "ELSE".toList]

/-- The state after the `IF 0` step of `progC1a`, used as witness data. -/
def stC9w : St := ⟨[], [("EOF".toList, 2)], [], [], [false], [], [], some (.int 0), [], []⟩

def c5StW (k : Nat) (r : Option PyVal) : St :=
  { c5St k r c5LT [1] with while_stack := [(true, 1)] }

def c5StF (r : Option PyVal) : St :=
  { c5St 0 r c5LT [1] with while_stack := [(false, 1)] }

/-! ### Character and digit facts -/

theorem ne_of_isDigit {c x : Char} (h : c.isDigit = true) (hx : x.isDigit = false) : c ≠ x :=
  fun e => by subst e; rw [h] at hx; cases hx

theorem pySpace_of_isDigit {c : Char} (h : c.isDigit = true) : pySpace c = false := by
  have n1 : c ≠ ' ' := ne_of_isDigit h (by decide)
  have n2 : c ≠ '\t' := ne_of_isDigit h (by decide)
  have n3 : c ≠ '\n' := ne_of_isDigit h (by decide)
  have n4 : c ≠ '\r' := ne_of_isDigit h (by decide)
  have n5 : c ≠ '\x0b' := ne_of_isDigit h (by decide)
  have n6 : c ≠ '\x0c' := ne_of_isDigit h (by decide)
  simp only [pySpace, decide_eq_false n1, decide_eq_false n2, decide_eq_false n3,
    decide_eq_false n4, decide_eq_false n5, decide_eq_false n6, Bool.or_self]

theorem not_mem_vet_of_isDigit {c : Char} (h : c.isDigit = true) : c ∉ var_end_table := by
  intro hm
  simp only [var_end_table, List.mem_cons, List.not_mem_nil, or_false] at hm
  rcases hm with rfl | rfl | rfl | rfl | rfl | rfl | rfl | rfl | rfl | rfl | rfl <;>
    exact absurd h (by decide)

theorem char_ofNat_digit {m : Nat} (h : m < 10) : (Char.ofNat (48 + m)).isDigit = true := by
  interval_cases m <;> decide

theorem char_ofNat_toNat {m : Nat} (h : m < 10) : (Char.ofNat (48 + m)).toNat = 48 + m := by
  interval_cases m <;> decide

theorem digsGo_all_digit : ∀ fuel n, n < fuel → ∀ c ∈ digsGo fuel n, c.isDigit = true := by
  intro fuel
  induction fuel with
  | zero => intro n h; omega
  | succ f ih =>
    intro n h c hc
    rw [digsGo] at hc
    by_cases h10 : n < 10
    · rw [if_pos h10] at hc
      simp only [List.mem_singleton] at hc
      subst hc
      exact char_ofNat_digit h10
    · rw [if_neg h10] at hc
      rcases List.mem_append.mp hc with hm | hm
      · exact ih (n / 10) (by omega) c hm
      · simp only [List.mem_singleton] at hm
        subst hm
        exact char_ofNat_digit (Nat.mod_lt _ (by omega))

theorem digsGo_ne_nil : ∀ fuel n, n < fuel → digsGo fuel n ≠ [] := by
  intro fuel n h
  match fuel, h with
  | f + 1, _ =>
    rw [digsGo]
    split
    · simp
    · simp

theorem natDigs_all_digit (n : Nat) : ∀ c ∈ natDigs n, c.isDigit = true :=
  digsGo_all_digit (n + 1) n (by omega)

theorem natDigs_ne_nil (n : Nat) : natDigs n ≠ [] :=
  digsGo_ne_nil (n + 1) n (by omega)

theorem digsGo_foldl : ∀ fuel n a, n < fuel →
    (digsGo fuel n).foldl readNatAux (some a) = some (a * 10 ^ (digsGo fuel n).length + n) := by
  intro fuel
  induction fuel with
  | zero => intro n a h; omega
  | succ f ih =>
    intro n a h
    rw [digsGo]
    by_cases h10 : n < 10
    · rw [if_pos h10]
      simp only [List.foldl_cons, List.foldl_nil, List.length_singleton]
      have hd : digVal? (Char.ofNat (48 + n)) = some n := by
        simp only [digVal?, char_ofNat_digit h10, if_pos, char_ofNat_toNat h10]
        congr 1
        omega
      simp [readNatAux, hd, pow_one]
    · rw [if_neg h10]
      rw [List.foldl_append]
      rw [ih (n / 10) a (by omega)]
      have hm : n % 10 < 10 := Nat.mod_lt _ (by omega)
      have hd : digVal? (Char.ofNat (48 + n % 10)) = some (n % 10) := by
        simp only [digVal?, char_ofNat_digit hm, if_pos, char_ofNat_toNat hm]
        congr 1
        omega
      simp only [List.foldl_cons, List.foldl_nil, readNatAux, hd]
      simp only [List.length_append, List.length_singleton]
      congr 1
      have := Nat.div_add_mod n 10
      rw [pow_succ]
      ring_nf
      omega

theorem readNat_natDigs (n : Nat) : readNat (natDigs n) = some n := by
  rw [readNat, if_neg (by simpa using natDigs_ne_nil n)]
  rw [natDigs, digsGo_foldl (n + 1) n 0 (by omega)]
  simp

/-! ### `pyStrip` facts -/

theorem dropWhile_eq_self_of_head {p : Char → Bool} :
    ∀ l : List Char, (∀ x ∈ l.head?, p x = false) → l.dropWhile p = l := by
  intro l h
  cases l with
  | nil => rfl
  | cons c rest =>
    rw [List.dropWhile_cons, if_neg]
    simp only [List.head?_cons, Option.mem_some_iff] at h
    simp [h c rfl]

theorem dropLastWhile_eq_self_of_last {p : Char → Bool} (l : List Char)
    (h : ∀ x ∈ l.getLast?, p x = false) : dropLastWhile p l = l := by
  rw [dropLastWhile, dropWhile_eq_self_of_head, List.reverse_reverse]
  intro x hx
  exact h x (by rwa [← List.head?_reverse])

theorem pyStrip_eq_self (l : List Char) (h1 : ∀ x ∈ l.head?, pySpace x = false)
    (h2 : ∀ x ∈ l.getLast?, pySpace x = false) : pyStrip l = l := by
  rw [pyStrip, dropWhile_eq_self_of_head l h1, dropLastWhile_eq_self_of_last l h2]

theorem pyStrip_no_space (l : List Char) (h : ∀ c ∈ l, pySpace c = false) : pyStrip l = l :=
  pyStrip_eq_self l (fun x hx => h x (List.mem_of_mem_head? hx))
    (fun x hx => by
      obtain ⟨hn, rfl⟩ := List.mem_getLast?_eq_getLast hx
      exact h _ (List.getLast_mem hn))

theorem dropLastWhile_append_one {p : Char → Bool} (x : List Char) (c : Char) (h : p c = true) :
    dropLastWhile p (x ++ [c]) = dropLastWhile p x := by
  rw [dropLastWhile, dropLastWhile, List.reverse_append]
  simp [List.dropWhile_cons, h]

theorem pyStrip_append_newline (l : List Char) : pyStrip (l ++ ['\n']) = pyStrip l := by
  rw [pyStrip, pyStrip, List.dropWhile_append]
  split
  · next he =>
    rw [List.isEmpty_iff] at he
    rw [he]
    simp [List.dropWhile, pySpace, dropLastWhile]
  · exact dropLastWhile_append_one _ '\n' (by decide)

/-! ### Numeral parsing and printing round trip -/

theorem pyInt?_natDigs (n : Nat) : pyInt? (natDigs n) = some (n : Int) := by
  have hall := natDigs_all_digit n
  have hstrip : pyStrip (natDigs n) = natDigs n :=
    pyStrip_no_space _ (fun c hc => pySpace_of_isDigit (hall c hc))
  obtain ⟨d, ds, he⟩ := List.exists_cons_of_ne_nil (natDigs_ne_nil n)
  have hd : d.isDigit = true := hall d (by rw [he]; exact List.mem_cons_self _ _)
  simp only [pyInt?, hstrip]
  rw [he]
  simp only [List.headD_cons]
  rw [if_neg (ne_of_isDigit hd (by decide)), if_neg (ne_of_isDigit hd (by decide))]
  rw [← he, readNat_natDigs]
  rfl

theorem pyStrInt_ofNat (n : Nat) : pyStrInt (n : Int) = natDigs n := by
  rw [pyStrInt, if_neg (by omega)]
  simp

theorem pyStrInt_chars (n : Int) : ∀ c ∈ pyStrInt n, c.isDigit = true ∨ c = '-' := by
  intro c hc
  rw [pyStrInt] at hc
  split at hc
  · rcases List.mem_cons.mp hc with rfl | hm
    · exact Or.inr rfl
    · exact Or.inl (natDigs_all_digit _ c hm)
  · exact Or.inl (natDigs_all_digit _ c hc)

theorem pySplit_ne_nil (sep : Char) : ∀ l, pySplit sep l ≠ [] := by
  intro l
  cases l with
  | nil => simp [pySplit]
  | cons c rest =>
    rw [pySplit]
    generalize pySplit sep rest = r
    cases r with
    | nil => simp
    | cons h t => by_cases hc : c = sep <;> simp [hc]

theorem pySplit_cons_sep (sep : Char) (rest : List Char) :
    pySplit sep (sep :: rest) = [] :: pySplit sep rest := by
  rw [pySplit]
  cases hp : pySplit sep rest with
  | nil => exact absurd hp (pySplit_ne_nil sep rest)
  | cons h t => simp

theorem pySplit_cons_ne {sep c : Char} (h : c ≠ sep) (rest : List Char) {hd : List Char}
    {tl : List (List Char)} (hp : pySplit sep rest = hd :: tl) :
    pySplit sep (c :: rest) = (c :: hd) :: tl := by
  rw [pySplit]
  simp only [hp]
  rw [if_neg h]

theorem pySplit_no_sep {sep : Char} : ∀ l : List Char, (∀ c ∈ l, c ≠ sep) → pySplit sep l = [l] := by
  intro l
  induction l with
  | nil => intro _; rfl
  | cons c rest ih =>
    intro h
    exact pySplit_cons_ne (h c (List.mem_cons_self _ _)) rest
      (ih (fun x hx => h x (List.mem_cons_of_mem _ hx)))

theorem pySplit_append {sep : Char} : ∀ a b : List Char, (∀ c ∈ a, c ≠ sep) →
    pySplit sep (a ++ sep :: b) = a :: pySplit sep b := by
  intro a
  induction a with
  | nil => intro b _; exact pySplit_cons_sep sep b
  | cons c a' ih =>
    intro b h
    exact pySplit_cons_ne (h c (List.mem_cons_self _ _)) _
      (ih b (fun x hx => h x (List.mem_cons_of_mem _ hx)))

theorem pyReplaceMod_cons (c : Char) (rest : List Char) (h : c ≠ ' ') :
    pyReplaceMod (c :: rest) = c :: pyReplaceMod rest :=
  pyReplaceMod.eq_3 c rest (fun _ hc _ => h hc)

theorem pyReplaceMod_no_space : ∀ l : List Char, (∀ c ∈ l, c ≠ ' ') → pyReplaceMod l = l := by
  intro l
  induction l with
  | nil => intro _; rfl
  | cons c rest ih =>
    intro h
    rw [pyReplaceMod_cons c rest (h c (List.mem_cons_self _ _)),
      ih (fun x hx => h x (List.mem_cons_of_mem _ hx))]

theorem dictGet?_dictSet_self {V : Type} (d : List (Chars × V)) (k : Chars) (v : V) :
    dictGet? (dictSet d k v) k = some v := by
  induction d with
  | nil => simp [dictSet, dictGet?]
  | cons p rest ih =>
    obtain ⟨k', v'⟩ := p
    rw [dictSet]
    by_cases hk : k' = k
    · rw [if_pos hk, dictGet?, if_pos rfl]
    · rw [if_neg hk, dictGet?, if_neg hk, ih]

theorem tokenize_foldl_plain : ∀ l : List Char, (∀ c ∈ l, c ≠ '"' ∧ c ≠ ',') →
    ∀ res tok, l.foldl tokenizeStep (res, tok, false) = (res, tok ++ l, false) := by
  intro l
  induction l with
  | nil => intro _ res tok; simp
  | cons c rest ih =>
    intro h res tok
    rw [List.foldl_cons]
    have hc := h c (List.mem_cons_self _ _)
    have hstep : tokenizeStep (res, tok, false) c = (res, tok ++ [c], false) := by
      rw [tokenizeStep]
      simp only [if_neg hc.1]
      rw [if_neg (by simp), if_neg (fun hand => hc.2 hand.1)]
    rw [hstep, ih (fun x hx => h x (List.mem_cons_of_mem _ hx))]
    simp

theorem tokenize_single (l : List Char) (h : ∀ c ∈ l, c ≠ '"' ∧ c ≠ ',') (hne : l ≠ []) :
    tokenize l = [pyStrip l] := by
  rw [tokenize]
  rw [tokenize_foldl_plain l h [] []]
  simp only [List.nil_append]
  rw [if_neg (by simpa using hne)]

theorem rmAux_copy (vt : List (Chars × Chars)) (lc : Nat) :
    ∀ a : List Char, (∀ c ∈ a, c ≠ '$') → ∀ rest nm res,
      rmAux vt lc (a ++ rest) false nm res = rmAux vt lc rest false nm (res ++ a) := by
  intro a
  induction a with
  | nil => intro _ rest nm res; simp
  | cons c a' ih =>
    intro h rest nm res
    rw [List.cons_append, rmAux]
    rw [if_neg (fun hand => h c (List.mem_cons_self _ _) hand.2)]
    rw [if_neg (by simp)]
    rw [if_neg (by simp)]
    rw [ih (fun x hx => h x (List.mem_cons_of_mem _ hx)) rest nm (res ++ [c])]
    simp

theorem rmAux_name (vt : List (Chars × Chars)) (lc : Nat) :
    ∀ a : List Char, (∀ c ∈ a, c ∉ var_end_table) → ∀ rest nm res,
      rmAux vt lc (a ++ rest) true nm res = rmAux vt lc rest true (nm ++ a) res := by
  intro a
  induction a with
  | nil => intro _ rest nm res; simp
  | cons c a' ih =>
    intro h rest nm res
    rw [List.cons_append, rmAux]
    rw [if_neg (by simp)]
    rw [if_neg (fun hand => h c (List.mem_cons_self _ _) hand.2)]
    rw [if_pos rfl]
    rw [ih (fun x hx => h x (List.mem_cons_of_mem _ hx)) rest (nm ++ [c]) res]
    simp

theorem replace_marco_no_dollar (vt : List (Chars × Chars)) (lc : Nat) (l : List Char)
    (h : ∀ c ∈ l, c ≠ '$') (hnl : l.getLast? ≠ some '\n') :
    replace_marco vt lc l = .ok (pyStrip l) := by
  rw [replace_marco]
  rw [if_neg hnl]
  rw [rmAux_copy vt lc l h ['\n'] [] []]
  rw [rmAux]
  rw [if_neg (by simp)]
  rw [if_neg (by simp)]
  rw [if_neg (by simp)]
  rw [rmAux]
  simp only [List.nil_append]
  rw [show Except.map pyStrip (Except.ok (l ++ ['\n'])) = Except.ok (pyStrip (l ++ ['\n'])) from rfl]
  rw [pyStrip_append_newline]

theorem parseExpr_digit (fuel : Nat) (cs : List Char) (d : Char) (ds : List Char)
    (h : cs.dropWhile (· = ' ') = d :: ds) (hd : d.isDigit = true) :
    parseExpr (fuel + 1) cs =
      match readNat ((d :: ds).takeWhile Char.isDigit) with
      | some n => .ok (.int n, (d :: ds).dropWhile Char.isDigit)
      | none => .error (.host "SyntaxError") := by
  rw [parseExpr, h]
  dsimp only
  rw [if_pos hd]

theorem evaluate_natDigs (n : Nat) : evaluate (natDigs n) = .ok (.int n) := by
  have hall := natDigs_all_digit n
  have hrep : pyReplaceMod (natDigs n) = natDigs n :=
    pyReplaceMod_no_space _ (fun c hc => ne_of_isDigit (hall c hc) (by decide))
  obtain ⟨d, ds, he⟩ := List.exists_cons_of_ne_nil (natDigs_ne_nil n)
  have hd : d.isDigit = true := hall d (by rw [he]; exact List.mem_cons_self _ _)
  have hdnsp : d ≠ ' ' := ne_of_isDigit hd (show Char.isDigit ' ' = false by decide)
  have hdrop : (natDigs n).dropWhile (· = ' ') = natDigs n :=
    dropWhile_eq_self_of_head _ (by
      rw [he]
      intro x hx
      simp only [List.head?_cons, Option.mem_some_iff] at hx
      subst hx
      simp [hdnsp])
  have htake : (natDigs n).takeWhile Char.isDigit = natDigs n :=
    List.takeWhile_eq_self_iff.mpr hall
  have hdrop2 : (natDigs n).dropWhile Char.isDigit = [] :=
    List.dropWhile_eq_nil_iff.mpr hall
  rw [evaluate]
  simp only [hrep]
  rw [parseExpr_digit _ (natDigs n) d ds (by rw [hdrop, he]) hd]
  rw [← he, htake, hdrop2, readNat_natDigs]
  rfl

theorem pyStrInt_no_space (n : Int) : ∀ c ∈ pyStrInt n, pySpace c = false := by
  intro c hc
  rcases pyStrInt_chars n c hc with hd | rfl
  · exact pySpace_of_isDigit hd
  · decide

theorem pyStrInt_ne_eq (n : Int) : ∀ c ∈ pyStrInt n, c ≠ '=' := by
  intro c hc
  rcases pyStrInt_chars n c hc with hd | rfl
  · exact ne_of_isDigit hd (by decide)
  · decide

theorem pyStrip_pyStrInt (n : Int) : pyStrip (pyStrInt n) = pyStrInt n :=
  pyStrip_no_space _ (pyStrInt_no_space n)

theorem split_errorlevel (ret : Int) :
    pySplit '=' ("ERRORLEVEL=".toList ++ pyStrInt ret) = ["ERRORLEVEL".toList, pyStrInt ret] := by
  have e1 : ("ERRORLEVEL=".toList : List Char) ++ pyStrInt ret
      = "ERRORLEVEL".toList ++ '=' :: pyStrInt ret := by
    rw [show ("ERRORLEVEL=".toList : List Char) = "ERRORLEVEL".toList ++ ['='] from rfl,
      List.append_assoc]
    rfl
  rw [e1, pySplit_append _ _ (by decide), pySplit_no_sep _ (pyStrInt_ne_eq ret)]

theorem exec_command_set_errorlevel (st : St) (i : Nat) (ret : Int) :
    exec_command st i "SET".toList ["ERRORLEVEL=".toList ++ pyStrInt ret] =
      .ok ({ st with var_table := dictSet st.var_table "ERRORLEVEL".toList (pyStrInt ret) }, 0) := by
  rw [exec_command, if_neg (by decide), if_neg (by decide), if_neg (by decide), if_pos rfl]
  rw [exec_set]
  rw [List.foldlM_cons]
  rw [split_errorlevel]
  dsimp only
  rw [show pyStrip "ERRORLEVEL".toList = "ERRORLEVEL".toList from rfl, pyStrip_pyStrInt]
  rfl

theorem exec_command_unrecognized (st : St) (i : Nat) (cmd : Chars) (args : List Chars)
    (h : cmd ∉ knownCommands) : exec_command st i cmd args = .ok (st, 0) := by
  have h' : ∀ x ∈ knownCommands, cmd ≠ x := fun x hx e => h (e ▸ hx)
  rw [exec_command, if_neg (h' _ (by decide)), if_neg (h' _ (by decide)),
    if_neg (h' _ (by decide)), if_neg (h' _ (by decide)), if_neg (h' _ (by decide)),
    if_neg (h' _ (by decide)), if_neg (h' _ (by decide)), if_neg (h' _ (by decide)),
    if_neg (h' _ (by decide)), if_neg (h' _ (by decide)), if_neg (h' _ (by decide)),
    if_neg (h' _ (by decide)), if_neg (h' _ (by decide))]

theorem liftExc_ne_next (e : Exc) (st : St) (i : Nat) (tr : List Event) :
    liftExc e ≠ .next st i tr := by
  cases e <;> simp [liftExc]

theorem execStep_next_trace (prog : List Chars) (st : St) (i : Nat) (cmd : Chars)
    (args : List Chars) (st' : St) (i' : Nat) (tr : List Event)
    (h : execStep prog st i cmd args = .next st' i' tr) : tr = [.dispatched i cmd] := by
  rw [execStep] at h
  split at h
  · cases h
  · exact absurd h (liftExc_ne_next _ _ _ _)
  · split at h
    · exact absurd h (liftExc_ne_next _ _ _ _)
    · dsimp only at h
      split at h
      · split at h <;> (injection h with _ _ h3; exact h3.symm)
      · injection h with _ _ h3; exact h3.symm

theorem directiveEND_vt {st : St} {i : Nat} {st' : St} {i' : Nat} {tr : List Event}
    (h : directiveEND st i = .next st' i' tr) : st'.var_table = st.var_table := by
  rw [directiveEND] at h
  repeat' split at h
  all_goals first
    | exact absurd h (liftExc_ne_next _ _ _ _)
    | (injection h with h1 h2 h3; subst h1; rfl)
    | (cases h; rfl)
    | cases h

theorem directiveWEND_vt {st : St} {i : Nat} {st' : St} {i' : Nat} {tr : List Event}
    (h : directiveWEND st i = .next st' i' tr) : st'.var_table = st.var_table := by
  rw [directiveWEND] at h
  repeat' split at h
  all_goals first
    | exact absurd h (liftExc_ne_next _ _ _ _)
    | (injection h with h1 h2 h3; subst h1; rfl)
    | (cases h; rfl)
    | cases h

theorem directiveWHILE_vt {st : St} {i : Nat} {args : List Chars} {st' : St} {i' : Nat}
    {tr : List Event} (h : directiveWHILE st i args = .next st' i' tr) :
    st'.var_table = st.var_table := by
  rw [directiveWHILE.eq_def] at h
  dsimp only at h
  repeat' split at h
  all_goals first
    | exact absurd h (liftExc_ne_next _ _ _ _)
    | (injection h with h1 h2 h3; subst h1; rfl)
    | (cases h; rfl)
    | cases h

theorem directiveIF_vt {st : St} {i : Nat} {args : List Chars} {st' : St} {i' : Nat}
    {tr : List Event} (h : directiveIF st i args = .next st' i' tr) :
    st'.var_table = st.var_table := by
  rw [directiveIF.eq_def] at h
  dsimp only at h
  repeat' split at h
  all_goals first
    | exact absurd h (liftExc_ne_next _ _ _ _)
    | (injection h with h1 h2 h3; subst h1; rfl)
    | (cases h; rfl)
    | cases h

theorem directiveELSE_vt {st : St} {i : Nat} {args : List Chars} {st' : St} {i' : Nat}
    {tr : List Event} (h : directiveELSE st i args = .next st' i' tr) :
    st'.var_table = st.var_table := by
  rw [directiveELSE] at h
  repeat' split at h
  all_goals first
    | exact absurd h (liftExc_ne_next _ _ _ _)
    | (injection h with h1 h2 h3; subst h1; rfl)
    | (cases h; rfl)
    | cases h

theorem stepLine_vt {prog : List Chars} {st : St} {i : Nat} {st' : St} {i' : Nat}
    {tr : List Event} (h : stepLine prog st i = .next st' i' tr)
    (hnd : ∀ l c, Event.dispatched l c ∉ tr) : st'.var_table = st.var_table := by
  rw [stepLine] at h
  split at h
  · cases h
  · dsimp only at h
    split at h
    · injection h with h1 _ _; subst h1; rfl
    · split at h
      · exact absurd h (liftExc_ne_next _ _ _ _)
      · split at h
        · exact directiveEND_vt h
        · split at h
          · exact directiveWEND_vt h
          · split at h
            · exact directiveWHILE_vt h
            · split at h
              · exact directiveIF_vt h
              · split at h
                · exact directiveELSE_vt h
                · split at h
                  · injection h with h1 _ _; subst h1; rfl
                  · split at h
                    · injection h with h1 _ _; subst h1; rfl
                    · have htr := execStep_next_trace _ _ _ _ _ _ _ _ h
                      subst htr
                      exact absurd (List.mem_singleton_self _) (hnd _ _)

theorem execStep_dispatch {prog : List Chars} {st : St} {i : Nat} {cmd : Chars}
    {args : List Chars} {st1 : St} {ret : Int}
    (h : exec_command st i cmd args = .ok (st1, ret)) :
    ∃ st2 i2, execStep prog st i cmd args = .next st2 i2 [.dispatched i cmd]
      ∧ dictGet? st2.var_table "ERRORLEVEL".toList = some (pyStrInt ret) := by
  rw [execStep, h]
  dsimp only
  rw [exec_command_set_errorlevel]
  dsimp only
  split
  · split
    · exact ⟨_, _, rfl, dictGet?_dictSet_self _ _ _⟩
    · exact ⟨_, _, rfl, dictGet?_dictSet_self _ _ _⟩
  · exact ⟨_, _, rfl, dictGet?_dictSet_self _ _ _⟩

theorem execStep_return_pop {prog : List Chars} {st : St} {i : Nat} {cmd : Chars}
    {args : List Chars} {st1 : St} {ret : Int} {r : Nat} {rest : List Nat}
    (h : exec_command st i cmd args = .ok (st1, ret))
    (hlen : prog.length ≤ st1.goto_stack.headD (i + 1))
    (hcall : st1.call_stack = r :: rest) :
    execStep prog st i cmd args =
      .next { st1 with var_table := dictSet st1.var_table "ERRORLEVEL".toList (pyStrInt ret),
                       goto_stack := st1.goto_stack.tail, call_stack := rest }
        r [.dispatched i cmd] := by
  rw [execStep, h]
  dsimp only
  rw [exec_command_set_errorlevel]
  dsimp only
  rw [if_pos hlen, hcall]

/-- Claim C10 (amended): a non-blank, non-comment, active line whose parsed
command name is none of the thirteen dispatcher commands and none of the
five structural directives executes without error and leaves the whole
interpreter state unchanged except that `ERRORLEVEL` is set to `"0"` and
the pointer advances by one - unless the advanced pointer passes the
program end with a non-empty call stack, in which case the pointer becomes
the popped return address (the ordinary subroutine-return step) and the
call stack shrinks accordingly. -/
theorem c10_unrecognized_ignored (prog : List Chars) (st : St) (i : Nat) (raw : Chars)
    (cmd : Chars) (args : List Chars)
    (hline : prog.get? i = some raw)
    (hne : (pyStrip raw).isEmpty = false)
    (hcomment : (pyStrip raw).headD ' ' ≠ '#')
    (hparse : parse_command st.var_table i (pyStrip raw) = .ok (cmd, args))
    (hcmd : cmd ∉ knownCommands)
    (hgoto : st.goto_stack = [])
    (hw : (st.while_stack.headD (true, 0)).1 = true)
    (hi : st.if_stack.headD true = true) :
    ((i + 1 < prog.length ∨ st.call_stack = []) →
      stepLine prog st i =
        .next { st with var_table := dictSet st.var_table "ERRORLEVEL".toList ['0'] }
          (i + 1) [.dispatched i cmd])
    ∧ (∀ r rest, prog.length ≤ i + 1 → st.call_stack = r :: rest →
      stepLine prog st i =
        .next { st with var_table := dictSet st.var_table "ERRORLEVEL".toList ['0'],
                        call_stack := rest } r [.dispatched i cmd]) := by
  have hcmd' : ∀ x ∈ knownCommands, cmd ≠ x := fun x hx e => hcmd (e ▸ hx)
  have hstep : ∀ res : StepRes, execStep prog st i cmd args = res → stepLine prog st i = res := by
    intro res hres
    rw [stepLine, hline]
    dsimp only
    rw [if_neg (fun hor => hor.elim (fun he => by rw [hne] at he; cases he) hcomment)]
    rw [hparse]
    dsimp only
    rw [if_neg (hcmd' _ (by decide)), if_neg (hcmd' _ (by decide)),
      if_neg (hcmd' _ (by decide)), if_neg (hcmd' _ (by decide)),
      if_neg (hcmd' _ (by decide))]
    rw [if_neg (fun e => Bool.noConfusion (hw.symm.trans e)),
      if_neg (fun e => Bool.noConfusion (hi.symm.trans e))]
    exact hres
  have hexec := exec_command_unrecognized st i cmd args hcmd
  constructor
  · intro hlt
    apply hstep
    rw [execStep, hexec]
    dsimp only
    rw [exec_command_set_errorlevel]
    dsimp only
    rw [hgoto]
    dsimp only [List.headD_nil, List.tail_nil]
    rcases hlt with hlt | hcall
    · rw [if_neg (by omega)]
      rfl
    · split
      · rw [hcall]
        rfl
      · rfl
  · intro r rest hlen hcall
    apply hstep
    rw [execStep, hexec]
    dsimp only
    rw [exec_command_set_errorlevel]
    dsimp only
    rw [hgoto]
    dsimp only [List.headD_nil, List.tail_nil]
    rw [if_pos hlen, hcall]
    rfl

/-- Claim C9: after every dispatched non-structural command the variable
`ERRORLEVEL` equals the decimal string of that command's returned status
(always `str(0)`, written through the `SET` path), and any `run`-loop step
that dispatches no command - structural directives, skipped lines, blank
and comment lines - leaves the variable table, and hence `ERRORLEVEL`,
unchanged, so the value persists until the next dispatch. -/
theorem c9_errorlevel :
    (∀ (prog : List Chars) (st : St) (i : Nat) (cmd : Chars) (args : List Chars)
        (st1 : St) (ret : Int), exec_command st i cmd args = .ok (st1, ret) →
      ∃ st2 i2, execStep prog st i cmd args = .next st2 i2 [.dispatched i cmd]
        ∧ dictGet? st2.var_table "ERRORLEVEL".toList = some (pyStrInt ret))
    ∧ (∀ (prog : List Chars) (st : St) (i : Nat) (st' : St) (i' : Nat) (tr : List Event),
      stepLine prog st i = .next st' i' tr → (∀ l c, Event.dispatched l c ∉ tr) →
      st'.var_table = st.var_table) :=
  ⟨fun _ _ _ _ _ _ _ h => execStep_dispatch h,
   fun _ _ _ _ _ _ h hnd => stepLine_vt h hnd⟩

theorem c9_errorlevel_witness :
    (exec_command stC10 3 "SET".toList ["a=1".toList] =
      .ok ({ stC10 with var_table := dictSet stC10.var_table "a".toList ['1'] }, 0))
    ∧ (∃ st2 i2, execStep progC10 stC10 3 "SET".toList ["a=1".toList]
        = .next st2 i2 [.dispatched 3 "SET".toList]
      ∧ dictGet? st2.var_table "ERRORLEVEL".toList = some (pyStrInt 0))
    ∧ (stepLine progC1a (initSt progC1a []) 0 = .next stC9w 1 [.ifEval 0 false]
      ∧ stC9w.var_table = (initSt progC1a []).var_table) := by
  refine ⟨by rfl, c9_errorlevel.1 progC10 stC10 3 _ _ _ 0 (by rfl), by rfl,
    c9_errorlevel.2 progC1a (initSt progC1a []) 0 stC9w 1 [.ifEval 0 false] (by rfl) ?_⟩
  intro l c hm
  simp at hm

/-- Claim C4 (amended): `CALL label` pushes `callSite + 1` onto the Call
Stack (and the target onto the pending-jump stack); whenever the pointer
reaches or exceeds the program length at the end of a dispatched-command
step with a non-empty Call Stack, control transfers to the most recently
pushed return address, last call returning first; the concrete nested-call
run shows the LIFO discipline end to end.  (The original claim's
"whenever the instruction pointer reaches or exceeds the program length"
is refuted by `c4_end_via_comment_skips_return`: the pop at the end of
`run`'s loop body only runs after a dispatched command, so a program that
walks past the end via a comment line terminates without returning.) -/
theorem c4_call_return_discipline :
    (∀ (st : St) (line_cnt : Nat) (name : Chars) (more : List Chars) (l : Nat),
      dictGet? st.label_table name = some l →
      exec_call st (name :: more) line_cnt =
        .ok { st with goto_stack := l :: st.goto_stack,
                      call_stack := (line_cnt + 1) :: st.call_stack })
    ∧ (∀ (prog : List Chars) (st : St) (i : Nat) (cmd : Chars) (args : List Chars)
        (st1 : St) (ret : Int) (r : Nat) (rest : List Nat),
      exec_command st i cmd args = .ok (st1, ret) →
      prog.length ≤ st1.goto_stack.headD (i + 1) →
      st1.call_stack = r :: rest →
      execStep prog st i cmd args =
        .next { st1 with var_table := dictSet st1.var_table "ERRORLEVEL".toList (pyStrInt ret),
                         goto_stack := st1.goto_stack.tail, call_stack := rest }
          r [.dispatched i cmd])
    ∧ runFuel progC4nest 20 (initSt progC4nest []) 0 =
      some (.exited 0
        ⟨[("ERRORLEVEL".toList, ['0']), (['z'], ['1']), (['y'], ['1']), (['x'], ['1'])],
          [(['a'], 3), (['b'], 7), ("EOF".toList, 10)], [], [], [], [], [], none, [], []⟩,
        [.dispatched 0 "CALL".toList, .dispatched 3 ":A".toList, .dispatched 4 "CALL".toList,
         .dispatched 7 ":B".toList, .dispatched 8 "SET".toList, .dispatched 9 "RETURN".toList,
         .dispatched 5 "SET".toList, .dispatched 6 "RETURN".toList, .dispatched 1 "SET".toList]) := by
  refine ⟨?_, ?_, by rfl⟩
  · intro st line_cnt name more l h
    rw [exec_call, h]
  · intro prog st i cmd args st1 ret r rest h hlen hcall
    exact execStep_return_pop h hlen hcall

theorem c4_call_return_discipline_witness :
    (exec_call stC10 ["s".toList] 0 =
      .ok { stC10 with goto_stack := [2], call_stack := [1, 1] })
    ∧ execStep progC10 stC10 3 "FOO".toList [] =
      .next { stC10 with var_table := dictSet stC10.var_table "ERRORLEVEL".toList ['0'],
                         call_stack := [] } 1 [.dispatched 3 "FOO".toList] := by
  constructor
  · have := c4_call_return_discipline.1 stC10 0 "s".toList [] 2 (by rfl)
    simpa using this
  · have := c4_call_return_discipline.2.1 progC10 stC10 3 "FOO".toList [] stC10 0 1 []
      (by rfl) (by rfl) (by rfl)
    simpa using this

theorem rmAux_colon (vt : List (Chars × Chars)) (lc : Nat) (rest nm res : List Char) :
    rmAux vt lc (':' :: rest) true nm res = rmAux vt lc rest true (nm ++ [':']) res := by
  conv_lhs => rw [rmAux]
  rw [if_neg (fun hand => Bool.noConfusion hand.1)]
  rw [if_neg (fun hand => absurd hand.2 (by decide))]
  rw [if_pos rfl]

theorem rmAux_c8_core (vt : List (Chars × Chars)) (line_cnt : Nat) (head val : Chars)
    (idx : Nat) (hc : ∀ c ∈ head, c ∉ var_end_table ∧ c ≠ ':')
    (hlook : dictGet? vt head = some val) :
    rmAux vt line_cnt ('$' :: head ++ ':' :: natDigs idx ++ ['$', '\n']) false [] [] =
      (if ((pySplit ' ' val).length : Int) ≤ (idx : Int) then
         .error (.hugo (Err.make line_cnt "array subscript over-bounded"))
       else
         match pyIndexGet (pySplit ' ' val) (idx : Int) with
         | some el => rmAux vt line_cnt ['\n'] false [] ([] ++ el ++ ['$'])
         | none => .error (.host "IndexError")) := by
  have hdigs := natDigs_all_digit idx
  rw [show (('$' :: head) ++ ':' :: natDigs idx ++ ['$', '\n'] : List Char)
      = '$' :: (head ++ (':' :: (natDigs idx ++ ['$', '\n']))) by simp]
  rw [rmAux]
  rw [if_pos ⟨rfl, rfl⟩]
  rw [rmAux_name vt line_cnt head (fun c hcm => (hc c hcm).1)]
  rw [rmAux_colon]
  rw [rmAux_name vt line_cnt (natDigs idx)
    (fun c hcm => not_mem_vet_of_isDigit (hdigs c hcm))]
  rw [show (['$', '\n'] : List Char) = '$' :: ['\n'] from rfl]
  rw [rmAux]
  rw [if_neg (fun hand => Bool.noConfusion hand.1)]
  rw [if_pos ⟨rfl, by decide⟩]
  rw [show ((([] : List Char) ++ head) ++ [':'] ++ natDigs idx) = head ++ ':' :: natDigs idx
    by simp]
  rw [pySplit_append head _ (fun c hcm => (hc c hcm).2),
    pySplit_no_sep _ (fun c hcm => ne_of_isDigit (hdigs c hcm) (by decide))]
  dsimp only
  rw [pyInt?_natDigs, hlook]

theorem rmAux_tail_dollar (vt : List (Chars × Chars)) (lc : Nat) (el : List Char) :
    rmAux vt lc ['\n'] false [] ([] ++ el ++ ['$']) = .ok (el ++ ['$', '\n']) := by
  rw [rmAux]
  rw [if_neg (fun hand => absurd hand.2 (by decide))]
  rw [if_neg (fun hand => Bool.noConfusion hand.1)]
  rw [if_neg Bool.noConfusion]
  rw [rmAux]
  simp

/-- Claim C8: expanding a macro reference `$head:index$` whose head is a
defined variable raises `Error('array subscript over-bounded')` carrying
the 1-based current line number whenever the integer index is at least the
number of space-separated elements of the variable's value, and splices in
the element at that position (followed by the preserved `'$'` delimiter)
without error whenever `0 <= index < length`. -/
theorem c8_array_subscript (vt : List (Chars × Chars)) (head val : Chars) (idx line_cnt : Nat)
    (hc : ∀ c ∈ head, c ∉ var_end_table ∧ c ≠ ':')
    (hlook : dictGet? vt head = some val) :
    ((pySplit ' ' val).length ≤ idx →
      replace_marco vt line_cnt ('$' :: head ++ ':' :: natDigs idx ++ ['$'])
        = .error (.hugo ⟨line_cnt + 1, "array subscript over-bounded"⟩))
    ∧ (∀ el, (pySplit ' ' val).get? idx = some el →
      replace_marco vt line_cnt ('$' :: head ++ ':' :: natDigs idx ++ ['$'])
        = .ok (pyStrip (el ++ ['$']))) := by
  have hline2 : (('$' :: head) ++ ':' :: natDigs idx ++ ['$'] : List Char).getLast? ≠ some '\n' := by
    rw [show (('$' :: head) ++ ':' :: natDigs idx ++ ['$'] : List Char)
        = (('$' :: head) ++ ':' :: natDigs idx) ++ ['$'] by simp, List.getLast?_concat]
    decide
  have hmain : replace_marco vt line_cnt ('$' :: head ++ ':' :: natDigs idx ++ ['$'])
      = Except.map pyStrip
          (rmAux vt line_cnt ('$' :: head ++ ':' :: natDigs idx ++ ['$', '\n']) false [] []) := by
    rw [replace_marco, if_neg hline2]
    rw [show ((('$' :: head) ++ ':' :: natDigs idx ++ ['$'] : List Char) ++ ['\n'])
        = ('$' :: head) ++ ':' :: natDigs idx ++ ['$', '\n'] by simp]
  constructor
  · intro hge
    rw [hmain, rmAux_c8_core vt line_cnt head val idx hc hlook]
    rw [if_pos (by exact_mod_cast hge)]
    rfl
  · intro el hel
    obtain ⟨hlt, -⟩ := List.get?_eq_some.mp hel
    rw [hmain, rmAux_c8_core vt line_cnt head val idx hc hlook]
    rw [if_neg (by exact_mod_cast Nat.not_le.mpr hlt)]
    rw [show pyIndexGet (pySplit ' ' val) (idx : Int)
        = (pySplit ' ' val).get? idx by rw [pyIndexGet, if_pos (by omega)]; simp]
    rw [hel]
    dsimp only
    rw [rmAux_tail_dollar]
    rw [show (Except.map pyStrip (.ok (el ++ ['$', '\n'])) : Except Exc (List Char))
        = .ok (pyStrip (el ++ ['$', '\n'])) from rfl]
    rw [show (el ++ ['$', '\n'] : List Char) = (el ++ ['$']) ++ ['\n'] by simp]
    rw [pyStrip_append_newline]

theorem c8_array_subscript_witness :
    replace_marco [("arr".toList, "1 2 3".toList)] 7 "$arr:5$".toList
      = .error (.hugo ⟨8, "array subscript over-bounded"⟩)
    ∧ replace_marco [("arr".toList, "1 2 3".toList)] 7 "$arr:1$".toList = .ok "2$".toList :=
  ⟨(c8_array_subscript [("arr".toList, "1 2 3".toList)] "arr".toList "1 2 3".toList 5 7
      (by decide) rfl).1 (by decide),
   (c8_array_subscript [("arr".toList, "1 2 3".toList)] "arr".toList "1 2 3".toList 1 7
      (by decide) rfl).2 "2".toList rfl⟩

theorem parse_concrete_line (vt : List (Chars × Chars)) (lc : Nat) (l : List Char)
    (h : ∀ c ∈ l, c ≠ '$') (hnl : l.getLast? ≠ some '\n') :
    parse_command vt lc l = .ok
      (match pySplit ' ' (pyStrip l) with
       | cmd :: args => (pyStrip (pyUpper cmd), (tokenize (List.intercalate [' '] args)).map pyStrip)
       | [] => ([], [])) := by
  rw [parse_command, replace_marco_no_dollar vt lc l h hnl]
  rfl

theorem parse_DEC (vt : List (Chars × Chars)) (lc : Nat) :
    parse_command vt lc "DEC c".toList = .ok ("DEC".toList, [['c']]) := by
  rw [parse_concrete_line vt lc _ (by decide) (by decide)]
  rfl

theorem parse_WEND (vt : List (Chars × Chars)) (lc : Nat) :
    parse_command vt lc "WEND".toList = .ok ("WEND".toList, []) := by
  rw [parse_concrete_line vt lc _ (by decide) (by decide)]
  rfl

theorem getLast?_append_right {l v : List Char} (hv : v ≠ []) :
    (l ++ v).getLast? = v.getLast? := by
  obtain ⟨d, ds, rfl⟩ := List.exists_cons_of_ne_nil hv
  rw [List.getLast?_append_cons]

theorem replace_marco_WHILE (vt : List (Chars × Chars)) (lc : Nat) (v : Chars)
    (hlook : dictGet? vt ['c'] = some v) :
    replace_marco vt lc "WHILE $c".toList = .ok (pyStrip ("WHILE ".toList ++ v)) := by
  rw [replace_marco, if_neg (by decide)]
  rw [show ("WHILE $c".toList ++ ['\n'] : List Char)
      = "WHILE ".toList ++ ('$' :: ['c', '\n']) by decide]
  rw [rmAux_copy vt lc _ (by decide)]
  rw [rmAux, if_pos ⟨rfl, rfl⟩]
  rw [rmAux, if_neg (fun hand => Bool.noConfusion hand.1),
    if_neg (fun hand => absurd hand.2 (by decide)), if_pos rfl]
  rw [rmAux, if_neg (fun hand => Bool.noConfusion hand.1), if_pos ⟨rfl, by decide⟩]
  rw [show pySplit ':' ([] ++ ['c']) = [['c']] from rfl]
  dsimp only
  rw [hlook]
  dsimp only
  rw [rmAux]
  rw [show (([] : List Char) ++ "WHILE ".toList ++ v ++ ['\n'])
      = ("WHILE ".toList ++ v) ++ ['\n'] by simp]
  rw [show (Except.map pyStrip (.ok (("WHILE ".toList ++ v) ++ ['\n'])) : Except Exc (List Char))
      = .ok (pyStrip (("WHILE ".toList ++ v) ++ ['\n'])) from rfl]
  rw [pyStrip_append_newline]

theorem parse_WHILE (vt : List (Chars × Chars)) (lc : Nat) (v : Chars)
    (hlook : dictGet? vt ['c'] = some v) (hdig : ∀ c ∈ v, c.isDigit = true) (hne : v ≠ []) :
    parse_command vt lc "WHILE $c".toList = .ok ("WHILE".toList, [v]) := by
  have hnospace : ∀ c ∈ v, pySpace c = false := fun c hc => pySpace_of_isDigit (hdig c hc)
  have hstrip1 : pyStrip ("WHILE ".toList ++ v) = "WHILE ".toList ++ v := by
    apply pyStrip_eq_self
    · intro x hx
      rw [show ("WHILE ".toList ++ v : List Char) = 'W' :: ("HILE ".toList ++ v) from rfl] at hx
      simp only [List.head?_cons, Option.mem_some_iff] at hx
      subst hx
      decide
    · intro x hx
      rw [getLast?_append_right hne] at hx
      obtain ⟨hn, rfl⟩ := List.mem_getLast?_eq_getLast hx
      exact hnospace _ (List.getLast_mem hn)
  rw [parse_command, replace_marco_WHILE vt lc v hlook, hstrip1]
  rw [show (Except.map (fun line2 =>
      match pySplit ' ' line2 with
      | cmd :: args => (pyStrip (pyUpper cmd), (tokenize (List.intercalate [' '] args)).map pyStrip)
      | [] => (([] : Chars), ([] : List Chars)))
        (.ok ("WHILE ".toList ++ v)) : Except Exc (Chars × List Chars))
      = .ok (match pySplit ' ' ("WHILE ".toList ++ v) with
       | cmd :: args => (pyStrip (pyUpper cmd), (tokenize (List.intercalate [' '] args)).map pyStrip)
       | [] => ([], [])) from rfl]
  rw [show ("WHILE ".toList ++ v : List Char) = "WHILE".toList ++ ' ' :: v by simp
    , pySplit_append _ _ (by decide)
    , pySplit_no_sep v (fun c hc => ne_of_isDigit (hdig c hc) (by decide))]
  dsimp only
  rw [show List.intercalate [' '] [v] = v by simp [List.intercalate]]
  rw [tokenize_single v (fun c hc => ⟨ne_of_isDigit (hdig c hc) (by decide),
      ne_of_isDigit (hdig c hc) (by decide)⟩) hne]
  simp only [List.map_cons, List.map_nil]
  rw [pyStrip_no_space v hnospace]
  rw [show pyStrip (pyUpper "WHILE".toList) = "WHILE".toList from by decide]
  rw [pyStrip_no_space v hnospace]

theorem stepLine_dispatch {prog : List Chars} {st : St} {i : Nat} {raw cmd : Chars}
    {args : List Chars}
    (hline : prog.get? i = some raw)
    (hne : (pyStrip raw).isEmpty = false)
    (hcomment : (pyStrip raw).headD ' ' ≠ '#')
    (hparse : parse_command st.var_table i (pyStrip raw) = .ok (cmd, args))
    (hnd : cmd ∉ (["END", "WEND", "WHILE", "IF", "ELSE"].map String.toList))
    (hw : (st.while_stack.headD (true, 0)).1 = true)
    (hi : st.if_stack.headD true = true) :
    stepLine prog st i = execStep prog st i cmd args := by
  have hnd' : ∀ x ∈ (["END", "WEND", "WHILE", "IF", "ELSE"].map String.toList), cmd ≠ x :=
    fun x hx e => hnd (e ▸ hx)
  rw [stepLine, hline]
  dsimp only
  rw [if_neg (fun hor => hor.elim (fun he => by rw [hne] at he; cases he) hcomment)]
  rw [hparse]
  dsimp only
  rw [if_neg (hnd' _ (by decide)), if_neg (hnd' _ (by decide)), if_neg (hnd' _ (by decide)),
    if_neg (hnd' _ (by decide)), if_neg (hnd' _ (by decide))]
  rw [if_neg (fun e => Bool.noConfusion (hw.symm.trans e)),
    if_neg (fun e => Bool.noConfusion (hi.symm.trans e))]

theorem pyTruthy_int_succ (k : Nat) : pyTruthy (.int (k + 1 : Nat)) = true := by
  simp [pyTruthy]
  omega

theorem c5_while_step (N k : Nat) (r : Option PyVal) (lt : List (Chars × Nat)) (wl : List Nat) :
    stepLine (progC5 N) (c5St k r lt wl) 1 =
      .next { c5St k (some (.int (k : Nat))) (if 1 ∈ wl then lt else dictSet lt (wlabel 1) 1)
                (if 1 ∈ wl then wl else 1 :: wl) with
              while_stack := [(pyTruthy (.int (k : Nat)), 1)] }
        2 [.whileEval 1 (pyTruthy (.int (k : Nat)))] := by
  rw [stepLine, show (progC5 N).get? 1 = some "WHILE $c".toList from rfl]
  dsimp only
  rw [if_neg (by decide)]
  rw [show pyStrip "WHILE $c".toList = "WHILE $c".toList from by decide]
  rw [parse_WHILE ((c5St k r lt wl).var_table) 1 (natDigs k) (by rfl)
    (natDigs_all_digit _) (natDigs_ne_nil _)]
  dsimp only
  rw [if_neg (by decide), if_neg (by decide), if_pos rfl]
  rw [directiveWHILE.eq_def]
  dsimp only
  by_cases hwl : 1 ∈ wl
  · simp only [c5St, if_pos hwl]
    rw [if_pos (Or.inl trivial)]
    rw [evaluate_natDigs]
  · simp only [c5St, if_neg hwl]
    rw [if_pos (Or.inl trivial)]
    rw [evaluate_natDigs]

theorem c5_dec_step (N k : Nat) (r : Option PyVal) :
    stepLine (progC5 N) (c5StW (k + 1) r) 2 =
      .next (c5StW k r) 3 [.dispatched 2 "DEC".toList] := by
  rw [@stepLine_dispatch (progC5 N) (c5StW (k + 1) r) 2 "DEC c".toList "DEC".toList [['c']]
    rfl (by decide) (by decide)
    (by rw [show pyStrip "DEC c".toList = "DEC c".toList from by decide]
        exact parse_DEC _ 2)
    (by decide) (by rfl) (by rfl)]
  rw [execStep]
  have hdec : exec_command (c5StW (k + 1) r) 2 "DEC".toList [['c']] = .ok (c5StW k r, 0) := by
    rw [exec_command, if_neg (by decide), if_neg (by decide), if_neg (by decide),
      if_neg (by decide), if_neg (by decide), if_neg (by decide), if_neg (by decide),
      if_pos rfl]
    rw [exec_dec]
    simp only [c5StW, c5St]
    rw [show dictGet? [("c".toList, natDigs (k + 1)), ("ERRORLEVEL".toList, ['0'])] ['c']
        = some (natDigs (k + 1)) from by
      rw [dictGet?, if_pos (show "c".toList = ['c'] from rfl)]]
    dsimp only
    rw [pyInt?_natDigs]
    dsimp only
    rw [show ((k + 1 : Nat) : Int) - 1 = ((k : Nat) : Int) by push_cast; ring]
    rw [pyStrInt_ofNat]
    rw [show dictSet [("c".toList, natDigs (k + 1)), ("ERRORLEVEL".toList, ['0'])] ['c']
        (natDigs k) = [("c".toList, natDigs k), ("ERRORLEVEL".toList, ['0'])] from by
      rw [dictSet, if_pos (show "c".toList = ['c'] from rfl)]
      rfl]
    rfl
  rw [hdec]
  dsimp only
  rw [exec_command_set_errorlevel]
  dsimp only
  rw [show dictSet (c5StW k r).var_table "ERRORLEVEL".toList (pyStrInt 0)
      = (c5StW k r).var_table from by
    simp only [c5StW, c5St]
    rw [dictSet, if_neg (by decide), dictSet,
      if_pos (show "ERRORLEVEL".toList = "ERRORLEVEL".toList from rfl)]
    rfl]
  rw [if_neg (by
    show ¬((progC5 N).length ≤ ((c5StW k r).goto_stack).headD (2 + 1))
    rw [show (progC5 N).length = 4 from rfl]
    simp [c5StW, c5St])]
  rfl

theorem c5_wend_step_true (N k : Nat) (r : Option PyVal) :
    stepLine (progC5 N) (c5StW k r) 3 = .next (c5St k r c5LT [1]) 1 [] := by
  rw [stepLine, show (progC5 N).get? 3 = some "WEND".toList from rfl]
  dsimp only
  rw [if_neg (by decide)]
  rw [show pyStrip "WEND".toList = "WEND".toList from by decide]
  rw [parse_WEND _ 3]
  dsimp only
  rw [if_neg (by decide), if_pos rfl]
  rw [directiveWEND]
  simp only [c5StW, c5St]
  rw [show dictGet? c5LT (wlabel 1) = some 1 from by decide]
  rfl

theorem c5_skip_step (N : Nat) (r : Option PyVal) :
    stepLine (progC5 N) (c5StF r) 2 = .next (c5StF r) 3 [] := by rfl

theorem c5_wend_step_false (N : Nat) (r : Option PyVal) :
    stepLine (progC5 N) (c5StF r) 3 = .next (c5St 0 r c5LT [1]) 4 [] := by rfl

theorem runFuel_step (prog : List Chars) (fuel : Nat) (st st' : St) (i i' : Nat)
    (tr : List Event) (hi : i < prog.length) (hs : stepLine prog st i = .next st' i' tr) :
    runFuel prog (fuel + 1) st i =
      (runFuel prog fuel st' i').map (fun p => (p.1, tr ++ p.2)) := by
  rw [runFuel, if_pos hi, hs]

theorem runFuel_done (prog : List Chars) (fuel : Nat) (st : St) (i : Nat)
    (h : ¬ i < prog.length) : runFuel prog (fuel + 1) st i = some (.normal st, []) := by
  rw [runFuel, if_neg h]

theorem c5_while_step_zero (N : Nat) (r : Option PyVal) (lt : List (Chars × Nat))
    (wl : List Nat) (h1 : (if 1 ∈ wl then lt else dictSet lt (wlabel 1) 1) = c5LT)
    (h2 : (if 1 ∈ wl then wl else 1 :: wl) = [1]) :
    stepLine (progC5 N) (c5St 0 r lt wl) 1 =
      .next (c5StF (some (.int (0 : Nat)))) 2 [.whileEval 1 false] := by
  rw [c5_while_step N 0 r lt wl, h1, h2]
  rfl

theorem c5_while_step_pos (N k : Nat) (r : Option PyVal) (lt : List (Chars × Nat))
    (wl : List Nat) (h1 : (if 1 ∈ wl then lt else dictSet lt (wlabel 1) 1) = c5LT)
    (h2 : (if 1 ∈ wl then wl else 1 :: wl) = [1]) :
    stepLine (progC5 N) (c5St (k + 1) r lt wl) 1 =
      .next (c5StW (k + 1) (some (.int (k + 1 : Nat)))) 2 [.whileEval 1 true] := by
  rw [c5_while_step N (k + 1) r lt wl, h1, h2, pyTruthy_int_succ]
  rfl

theorem c5_loop (N : Nat) : ∀ (k : Nat) (r : Option PyVal) (lt : List (Chars × Nat))
    (wl : List Nat), (if 1 ∈ wl then lt else dictSet lt (wlabel 1) 1) = c5LT →
    (if 1 ∈ wl then wl else 1 :: wl) = [1] →
    runFuel (progC5 N) (3 * k + 4) (c5St k r lt wl) 1 =
      some (.normal (c5St 0 (some (.int (0 : Nat))) c5LT [1]), c5Trace k) := by
  have hlen : (progC5 N).length = 4 := by rfl
  intro k
  induction k with
  | zero =>
    intro r lt wl h1 h2
    have hend : runFuel (progC5 N) 1 (c5St 0 (some (.int (0 : Nat))) c5LT [1]) 4
        = some (.normal (c5St 0 (some (.int (0 : Nat))) c5LT [1]), []) :=
      runFuel_done _ 0 _ _ (by omega)
    have h3 : runFuel (progC5 N) 2 (c5StF (some (.int (0 : Nat)))) 3
        = some (.normal (c5St 0 (some (.int (0 : Nat))) c5LT [1]), []) := by
      rw [runFuel_step _ 1 _ _ _ _ _ (by omega) (c5_wend_step_false N _), hend]
      rfl
    have h4 : runFuel (progC5 N) 3 (c5StF (some (.int (0 : Nat)))) 2
        = some (.normal (c5St 0 (some (.int (0 : Nat))) c5LT [1]), []) := by
      rw [runFuel_step _ 2 _ _ _ _ _ (by omega) (c5_skip_step N _), h3]
      rfl
    rw [show 3 * 0 + 4 = 3 + 1 from rfl]
    rw [runFuel_step _ 3 _ _ _ _ _ (by omega) (c5_while_step_zero N r lt wl h1 h2), h4]
    rfl
  | succ k ih =>
    intro r lt wl h1 h2
    rw [show 3 * (k + 1) + 4 = (3 * k + 6) + 1 by ring]
    rw [runFuel_step _ (3 * k + 6) _ _ _ _ _ (by omega)
      (c5_while_step_pos N k r lt wl h1 h2)]
    rw [show 3 * k + 6 = (3 * k + 5) + 1 by ring]
    rw [runFuel_step _ (3 * k + 5) _ _ _ _ _ (by omega) (c5_dec_step N k _)]
    rw [show 3 * k + 5 = (3 * k + 4) + 1 by ring]
    rw [runFuel_step _ (3 * k + 4) _ _ _ _ _ (by omega) (c5_wend_step_true N k _)]
    rw [ih (some (.int (k + 1 : Nat))) c5LT [1] (by simp) (by simp)]
    simp only [Option.map_some, List.append_assoc, List.nil_append]
    rw [show c5Trace (k + 1)
        = Event.whileEval 1 true :: Event.dispatched 2 "DEC".toList :: c5Trace k by
      simp [c5Trace, List.replicate_succ]]
    rfl

theorem pyStrip_line0 (N : Nat) :
    pyStrip ("SET c=".toList ++ natDigs N) = "SET c=".toList ++ natDigs N := by
  apply pyStrip_eq_self
  · intro x hx
    rw [show ("SET c=".toList ++ natDigs N : List Char)
        = 'S' :: ("ET c=".toList ++ natDigs N) from rfl] at hx
    simp only [List.head?_cons, Option.mem_some_iff] at hx
    subst hx
    decide
  · intro x hx
    rw [getLast?_append_right (natDigs_ne_nil N)] at hx
    obtain ⟨hn, rfl⟩ := List.mem_getLast?_eq_getLast hx
    exact pySpace_of_isDigit (natDigs_all_digit N _ (List.getLast_mem hn))

theorem loadC5 (N : Nat) : loadLabels (progC5 N) = [("EOF".toList, 4)] := by
  rw [loadLabels]
  rw [show List.range (progC5 N).length = [0, 1, 2, 3] from by
    rw [show (progC5 N).length = 4 from rfl]
    rfl]
  simp only [List.foldl_cons, List.foldl_nil]
  rw [show (progC5 N).get? 0 = some ("SET c=".toList ++ natDigs N) from rfl]
  dsimp only
  rw [pyStrip_line0]
  rw [show ("SET c=".toList ++ natDigs N : List Char)
      = 'S' :: ("ET c=".toList ++ natDigs N) from rfl]
  rfl

theorem forall_mem_append {P : Char → Prop} {a b : List Char} (ha : ∀ c ∈ a, P c)
    (hb : ∀ c ∈ b, P c) : ∀ c ∈ a ++ b, P c := by
  intro c hc
  rcases List.mem_append.mp hc with h | h
  exacts [ha c h, hb c h]

theorem ne_of_all (l : List Char) (x : Char) (h : l.all (· ≠ x) = true) : ∀ c ∈ l, c ≠ x :=
  fun c hc => by simpa using List.all_eq_true.mp h c hc

theorem pyStrip_carg (N : Nat) :
    pyStrip ("c=".toList ++ natDigs N) = "c=".toList ++ natDigs N := by
  apply pyStrip_eq_self
  · intro x hx
    rw [show ("c=".toList ++ natDigs N : List Char) = 'c' :: ("=".toList ++ natDigs N) from rfl]
      at hx
    simp only [List.head?_cons, Option.mem_some_iff] at hx
    subst hx
    decide
  · intro x hx
    rw [getLast?_append_right (natDigs_ne_nil N)] at hx
    obtain ⟨hn, rfl⟩ := List.mem_getLast?_eq_getLast hx
    exact pySpace_of_isDigit (natDigs_all_digit N _ (List.getLast_mem hn))

theorem parse_line0 (vt : List (Chars × Chars)) (N : Nat) :
    parse_command vt 0 ("SET c=".toList ++ natDigs N) =
      .ok ("SET".toList, ["c=".toList ++ natDigs N]) := by
  have hdigs := natDigs_all_digit N
  rw [parse_concrete_line vt 0 _
    (forall_mem_append (ne_of_all _ _ (by decide))
      (fun c hc => ne_of_isDigit (hdigs c hc) (by decide)))
    (by
      rw [getLast?_append_right (natDigs_ne_nil N)]
      intro hx
      obtain ⟨hn, he⟩ := List.mem_getLast?_eq_getLast hx
      exact absurd (hdigs _ (he ▸ List.getLast_mem hn)) (by decide))]
  rw [pyStrip_line0]
  rw [show ("SET c=".toList ++ natDigs N : List Char)
      = "SET".toList ++ ' ' :: ("c=".toList ++ natDigs N) by simp]
  rw [pySplit_append _ _ (by decide)]
  rw [pySplit_no_sep _ (forall_mem_append (ne_of_all _ _ (by decide))
    (fun c hc => ne_of_isDigit (hdigs c hc) (by decide)))]
  dsimp only
  rw [show pyStrip (pyUpper "SET".toList) = "SET".toList from by decide]
  rw [show List.intercalate [' '] ["c=".toList ++ natDigs N] = "c=".toList ++ natDigs N by
    simp [List.intercalate]]
  rw [tokenize_single _
    (fun c hc => by
      rcases List.mem_append.mp hc with h | h
      · refine ⟨?_, ?_⟩ <;> [skip; skip] <;>
          exact ne_of_all _ _ (by decide) c h
      · exact ⟨ne_of_isDigit (hdigs c h) (by decide), ne_of_isDigit (hdigs c h) (by decide)⟩)
    (by simp)]
  rw [pyStrip_carg]
  simp only [List.map_cons, List.map_nil]
  rw [pyStrip_carg]

theorem c5_set_step (N : Nat) :
    stepLine (progC5 N) (initSt (progC5 N) []) 0 =
      .next (c5St N none [("EOF".toList, 4)] []) 1 [.dispatched 0 "SET".toList] := by
  rw [@stepLine_dispatch (progC5 N) (initSt (progC5 N) []) 0
    ("SET c=".toList ++ natDigs N) "SET".toList ["c=".toList ++ natDigs N] rfl
    (by rw [pyStrip_line0]; simp)
    (by rw [pyStrip_line0]
        rw [show ("SET c=".toList ++ natDigs N : List Char)
            = 'S' :: ("ET c=".toList ++ natDigs N) from rfl, List.headD_cons]
        decide)
    (by rw [pyStrip_line0]; exact parse_line0 _ N)
    (by decide) (by rfl) (by rfl)]
  rw [execStep]
  have hset : exec_command (initSt (progC5 N) []) 0 "SET".toList ["c=".toList ++ natDigs N]
      = .ok ({ initSt (progC5 N) [] with
               var_table := [("c".toList, natDigs N)] }, 0) := by
    rw [exec_command, if_neg (by decide), if_neg (by decide), if_neg (by decide), if_pos rfl]
    rw [exec_set, List.foldlM_cons]
    rw [show ("c=".toList ++ natDigs N : List Char) = "c".toList ++ '=' :: natDigs N by simp]
    rw [pySplit_append _ _ (by decide),
      pySplit_no_sep _ (fun c hc => ne_of_isDigit (natDigs_all_digit N c hc) (by decide))]
    dsimp only
    rw [show pyStrip "c".toList = "c".toList from rfl,
      pyStrip_no_space (natDigs N) (fun c hc => pySpace_of_isDigit (natDigs_all_digit N c hc))]
    rfl
  rw [hset]
  dsimp only
  rw [exec_command_set_errorlevel]
  dsimp only
  rw [if_neg (by
    show ¬((progC5 N).length ≤ ([] : List Nat).headD (0 + 1))
    rw [show (progC5 N).length = 4 from rfl]
    decide)]
  rw [show (initSt (progC5 N) []).label_table = [("EOF".toList, 4)] from loadC5 N]
  rfl

theorem c5Trace_succ (k : Nat) : c5Trace (k + 1)
    = .whileEval 1 true :: .dispatched 2 "DEC".toList :: c5Trace k := by
  simp [c5Trace, List.replicate_succ]

theorem c5Trace_filter_cond (k : Nat) : (c5Trace k).filter (isCondEvalAt 1)
    = List.replicate k (.whileEval 1 true) ++ [.whileEval 1 false] := by
  induction k with
  | zero => rfl
  | succ k ih =>
    rw [c5Trace_succ]
    simp only [List.filter_cons, List.replicate_succ]
    rw [show isCondEvalAt 1 (.whileEval 1 true) = true from rfl,
      show isCondEvalAt 1 (.dispatched 2 "DEC".toList) = false from rfl]
    simp [ih]

theorem c5Trace_filter_disp (k : Nat) :
    ((c5Trace k).filter (isDispatchedAt 2)).length = k := by
  induction k with
  | zero => rfl
  | succ k ih =>
    rw [c5Trace_succ]
    simp only [List.filter_cons]
    rw [show isDispatchedAt 2 (Event.whileEval 1 true) = false from rfl,
      show isDispatchedAt 2 (Event.dispatched 2 "DEC".toList) = true from rfl]
    simp [ih]

/-- Claim C5: for every matched `WHILE`/`WEND` pair executed in an active
context the condition is evaluated exactly once per iteration, and the
executed-body iteration count equals the number of truthy evaluations
before the first falsy one. Step-level decomposition, universally
quantified over programs and states: (1) every arrival at a `WHILE` line
in an active context (while-stack empty or truthy top, if-stack top
active) evaluates the condition exactly once -- one `whileEval` event --
and pushes `(bool(result), i)`; (2) `WEND` over a truthy entry pops it
and jumps back to the `WHILE` line, emitting no evaluation event, so the
only re-evaluation is the single one on re-arrival; (3) `WEND` over a
falsy entry pops it and falls through, again with no evaluation, giving
the final falsy evaluation exactly once; (4) a non-directive body line
under a falsy while-top is skipped with no dispatch and no state change;
(5) a non-directive body line under a truthy while-top and active
if-top dispatches exactly once; and (6) on the loop family `progC5 N`
(`SET c=N` / `WHILE $c` / `DEC c` / `WEND`) the complete run therefore
shows exactly `N + 1` condition evaluations at the `WHILE` line --
`N` truthy, then one final falsy -- and exactly `N` body dispatches. -/
theorem c5_while_iteration_counts :
    (∀ (prog : List Chars) (st : St) (i : Nat) (raw : Chars)
       (args : List Chars) (a : Chars) (more : List Chars) (v : PyVal),
       prog.get? i = some raw →
       (pyStrip raw).isEmpty = false →
       (pyStrip raw).headD ' ' ≠ '#' →
       parse_command st.var_table i (pyStrip raw) = .ok ("WHILE".toList, args) →
       (st.while_stack = [] ∨ (st.while_stack.headD (false, 0)).1 = true) →
       st.if_stack.headD true = true →
       args = a :: more →
       evaluate a = .ok v →
       stepLine prog st i =
         .next { st with
                 label_table :=
                   (if i ∈ st.while_lines then st.label_table
                    else dictSet st.label_table (wlabel i) i),
                 while_lines :=
                   (if i ∈ st.while_lines then st.while_lines else i :: st.while_lines),
                 result := some v,
                 while_stack := (pyTruthy v, i) :: st.while_stack }
           (i + 1) [.whileEval i (pyTruthy v)])
    ∧ (∀ (prog : List Chars) (st : St) (i : Nat) (raw : Chars) (args : List Chars)
         (w j : Nat) (rest : List (Bool × Nat)),
       prog.get? i = some raw →
       (pyStrip raw).isEmpty = false →
       (pyStrip raw).headD ' ' ≠ '#' →
       parse_command st.var_table i (pyStrip raw) = .ok ("WEND".toList, args) →
       st.while_stack = (true, w) :: rest →
       dictGet? st.label_table (wlabel w) = some j →
       stepLine prog st i = .next { st with while_stack := rest } j [])
    ∧ (∀ (prog : List Chars) (st : St) (i : Nat) (raw : Chars) (args : List Chars)
         (w : Nat) (rest : List (Bool × Nat)),
       prog.get? i = some raw →
       (pyStrip raw).isEmpty = false →
       (pyStrip raw).headD ' ' ≠ '#' →
       parse_command st.var_table i (pyStrip raw) = .ok ("WEND".toList, args) →
       st.while_stack = (false, w) :: rest →
       stepLine prog st i = .next { st with while_stack := rest } (i + 1) [])
    ∧ (∀ (prog : List Chars) (st : St) (i : Nat) (raw cmd : Chars) (args : List Chars),
       prog.get? i = some raw →
       (pyStrip raw).isEmpty = false →
       (pyStrip raw).headD ' ' ≠ '#' →
       parse_command st.var_table i (pyStrip raw) = .ok (cmd, args) →
       cmd ∉ (["END", "WEND", "WHILE", "IF", "ELSE"].map String.toList) →
       (st.while_stack.headD (true, 0)).1 = false →
       stepLine prog st i = .next st (i + 1) [])
    ∧ (∀ (prog : List Chars) (st : St) (i : Nat) (raw cmd : Chars) (args : List Chars)
         (st1 : St) (ret : Int),
       prog.get? i = some raw →
       (pyStrip raw).isEmpty = false →
       (pyStrip raw).headD ' ' ≠ '#' →
       parse_command st.var_table i (pyStrip raw) = .ok (cmd, args) →
       cmd ∉ (["END", "WEND", "WHILE", "IF", "ELSE"].map String.toList) →
       (st.while_stack.headD (true, 0)).1 = true →
       st.if_stack.headD true = true →
       exec_command st i cmd args = .ok (st1, ret) →
       ∃ st2 i2, stepLine prog st i = .next st2 i2 [.dispatched i cmd])
    ∧ (∀ N : Nat,
       runFuel (progC5 N) (3 * N + 5) (initSt (progC5 N) []) 0 =
         some (.normal (c5St 0 (some (.int (0 : Nat))) c5LT [1]),
           .dispatched 0 "SET".toList :: c5Trace N)
       ∧ ((Event.dispatched 0 "SET".toList :: c5Trace N).filter (isCondEvalAt 1))
           = List.replicate N (.whileEval 1 true) ++ [.whileEval 1 false]
       ∧ ((Event.dispatched 0 "SET".toList :: c5Trace N).filter (isCondEvalAt 1)).length
           = N + 1
       ∧ ((Event.dispatched 0 "SET".toList :: c5Trace N).filter (isDispatchedAt 2)).length
           = N) := by
  refine ⟨?_, ?_, ?_, ?_, ?_, ?_⟩
  · intro prog st i raw args a more v hline hne hcomment hparse hwact hifact hargs hv
    subst hargs
    rw [stepLine, hline]
    dsimp only
    rw [if_neg (fun hor => hor.elim (fun he => by rw [hne] at he; cases he) hcomment)]
    rw [hparse]
    dsimp only
    rw [if_neg (by decide), if_neg (by decide), if_pos rfl]
    rw [directiveWHILE.eq_def]
    dsimp only
    by_cases hreg : i ∈ st.while_lines
    · simp only [if_pos hreg]
      rw [if_pos hwact]
      rw [hv]
    · simp only [if_neg hreg]
      rw [if_pos hwact]
      rw [hv]
  · intro prog st i raw args w j rest hline hne hcomment hparse hws hlab
    rw [stepLine, hline]
    dsimp only
    rw [if_neg (fun hor => hor.elim (fun he => by rw [hne] at he; cases he) hcomment)]
    rw [hparse]
    dsimp only
    rw [if_neg (by decide), if_pos rfl]
    rw [directiveWEND, hws]
    dsimp only
    rw [if_neg (by decide)]
    rw [hlab]
  · intro prog st i raw args w rest hline hne hcomment hparse hws
    rw [stepLine, hline]
    dsimp only
    rw [if_neg (fun hor => hor.elim (fun he => by rw [hne] at he; cases he) hcomment)]
    rw [hparse]
    dsimp only
    rw [if_neg (by decide), if_pos rfl]
    rw [directiveWEND, hws]
    dsimp only
    rw [if_pos (by decide)]
  · intro prog st i raw cmd args hline hne hcomment hparse hnd hw
    have hnd' : ∀ x ∈ (["END", "WEND", "WHILE", "IF", "ELSE"].map String.toList), cmd ≠ x :=
      fun x hx e => hnd (e ▸ hx)
    rw [stepLine, hline]
    dsimp only
    rw [if_neg (fun hor => hor.elim (fun he => by rw [hne] at he; cases he) hcomment)]
    rw [hparse]
    dsimp only
    rw [if_neg (hnd' _ (by decide)), if_neg (hnd' _ (by decide)), if_neg (hnd' _ (by decide)),
      if_neg (hnd' _ (by decide)), if_neg (hnd' _ (by decide))]
    rw [if_pos hw]
  · intro prog st i raw cmd args st1 ret hline hne hcomment hparse hnd hw hi hexec
    rw [stepLine_dispatch hline hne hcomment hparse hnd hw hi]
    exact execStep_dispatch hexec |>.imp fun st2 h => h.imp fun i2 h => h.1
  · intro N
    have hfilter : ((Event.dispatched 0 "SET".toList :: c5Trace N).filter (isCondEvalAt 1))
        = List.replicate N (.whileEval 1 true) ++ [.whileEval 1 false] := by
      simp only [List.filter_cons]
      rw [show isCondEvalAt 1 (Event.dispatched 0 "SET".toList) = false from rfl]
      simp [c5Trace_filter_cond]
    refine ⟨?_, hfilter, by rw [hfilter]; simp, ?_⟩
    · rw [show 3 * N + 5 = (3 * N + 4) + 1 by ring]
      rw [runFuel_step _ (3 * N + 4) _ _ _ _ _
        (by rw [show (progC5 N).length = 4 from rfl]; omega) (c5_set_step N)]
      rw [c5_loop N N none [("EOF".toList, 4)] [] (by decide) (by decide)]
      rfl
    · simp only [List.filter_cons]
      rw [show isDispatchedAt 2 (Event.dispatched 0 "SET".toList) = false from rfl]
      simp [c5Trace_filter_disp]

/-- Claim C1 (code evidence): the `WHILE` handler evaluates its condition
whenever the top of the While Stack alone permits it, ignoring the If
Stack.  Running `["IF 0", "WHILE 1"]` shows the `WHILE 1` condition being
evaluated (event `whileEval 1 true`) and `(true, 1)` pushed even though
the enclosing `IF` branch is false - the claim requires the evaluation to
be skipped and `false` pushed.  Consequently
`["IF 0", "WHILE 1", "WEND", "END"]` never terminates: 40 fuel steps are
exhausted with no outcome. -/
theorem c1_while_cond_evaluated_in_false_if_branch :
    (runFuel progC1a 3 (initSt progC1a []) 0 =
      some (.normal ⟨[], [("EOF".toList, 2), (wlabel 1, 1)], [], [], [false], [(true, 1)], [1],
        some (.int 1), [], []⟩,
        [.ifEval 0 false, .whileEval 1 true]))
    ∧ runFuel progC1b 40 (initSt progC1b []) 0 = none :=
  ⟨rfl, rfl⟩

/-- Claim C2 (code evidence): on `["IF 1", "ELSE IF, 1"]` (the comma form
is the only spelling whose first parsed token equals `IF`), the popped
entry is true, the condition is not evaluated (no `elseEval` event), and
the stale `result` local - still `int 1` from the `IF` - is pushed, so the
If Stack ends `[true]` where the claim requires `false` to be pushed.  On
`["IF 0", "ELSE IF 0"]` the space form tokenizes to the single token
`"IF 0"`, so the line runs as a plain `ELSE`: the condition `0` is never
evaluated and the negation `true` is pushed where the claim requires the
evaluated `false`. -/
theorem c2_else_if_stale_result :
    (runFuel progC2a 3 (initSt progC2a []) 0 =
      some (.normal ⟨[], [("EOF".toList, 2)], [], [], [true], [], [], some (.int 1), [], []⟩,
        [.ifEval 0 true]))
    ∧ (runFuel progC2b 3 (initSt progC2b []) 0 =
      some (.normal ⟨[], [("EOF".toList, 2)], [], [], [true], [], [], some (.int 0), [], []⟩,
        [.ifEval 0 false])) :=
  ⟨rfl, rfl⟩

/-- Claim C3 (code evidence): because CPython's `eval` inserts
`__builtins__` into a globals dict that lacks it, the identifier `len` -
not one of `abs`/`min`/`max` in `allowed_objects` - resolves and
`evaluate("len('ab')")` silently succeeds with `2`, where the claim
requires an evaluation error; the three allowed built-ins work, and a
genuinely unknown identifier still fails with `NameError`. -/
theorem c3_builtin_resolves_in_evaluate :
    evaluate "len('ab')".toList = .ok (.int 2)
    ∧ evaluate "abs(-3)".toList = .ok (.int 3)
    ∧ evaluate "foo".toList = .error (.host "NameError") :=
  ⟨rfl, rfl, rfl⟩

/-- Claim C6 counterexample: with `{"x": "5"}` the expansion of
`"PRINT $x$ apples"` is not `"PRINT 5 apples"`, and with `x` undefined it
is not `"PRINT  apples"` - the closing `'$'` delimiter is preserved in
the output by `replace_marco`'s `finally` block. -/
theorem c6_macro_keeps_closing_dollar :
    replace_marco [("x".toList, ['5'])] 0 "PRINT $x$ apples".toList
      ≠ .ok "PRINT 5 apples".toList
    ∧ replace_marco [] 0 "PRINT $x$ apples".toList ≠ .ok "PRINT  apples".toList := by
  constructor <;> decide

/-- Claim C6 (amended): with `{"x": "5"}` the expansion of
`"PRINT $x$ apples"` is exactly `"PRINT 5$ apples"`, and with `x`
undefined it is exactly `"PRINT $ apples"`: undefined references resolve
to empty text without error, and the delimiter character that ends a macro
reference - here the closing `'$'` - is always appended to the output. -/
theorem c6_macro_expansion_values :
    replace_marco [("x".toList, ['5'])] 0 "PRINT $x$ apples".toList
      = .ok "PRINT 5$ apples".toList
    ∧ replace_marco [] 0 "PRINT $x$ apples".toList = .ok "PRINT $ apples".toList :=
  ⟨rfl, rfl⟩

/-- Claim C7 counterexample: `tokenize('a, "b,c", d(1,2)')` does not
return the three tokens `["a", "b,c", "d(1,2)"]`. -/
theorem c7_tokenize_not_three_tokens :
    tokenize "a, \"b,c\", d(1,2)".toList ≠ ["a".toList, "b,c".toList, "d(1,2)".toList] := by
  decide

/-- Claim C7 (amended): `tokenize('a, "b,c", d(1,2)')` returns exactly
the four tokens `["a", "b,c", "", "d(1,2)"]`: commas split tokens except
inside quoted substrings (quotes stripped) and inside unbalanced brackets,
every emitted token is whitespace-trimmed, and the comma that immediately
follows a closed quote emits an additional empty token because the token
buffer was already flushed by the closing quote. -/
theorem c7_tokenize_actual_tokens :
    tokenize "a, \"b,c\", d(1,2)".toList = ["a".toList, "b,c".toList, [], "d(1,2)".toList] :=
  rfl

/-- Claim C4 counterexample: in `["CALL s", "SET a=1", ":s", "# end"]`
the subroutine walks past the program end via the comment line, so the
run terminates normally with the return address `1` still on the Call
Stack and `SET a=1` never executed - `a` is unset in the final state -
although the claim promises a return to `callSite + 1` whenever the
pointer reaches the program length with a non-empty Call Stack. -/
theorem c4_end_via_comment_skips_return :
    runFuel progC4cx 10 (initSt progC4cx []) 0 =
      some (.normal ⟨[("ERRORLEVEL".toList, ['0'])], [(['s'], 2), ("EOF".toList, 4)],
        [1], [], [], [], [], none, [], []⟩,
        [.dispatched 0 "CALL".toList, .dispatched 2 ":S".toList])
    ∧ dictGet? [(("ERRORLEVEL".toList : Chars), (['0'] : Chars))] "a".toList = none :=
  ⟨rfl, rfl⟩

/-- Claim C10 counterexample: executing the unrecognized command `FOO` on
the last line of `["CALL s", "SET a=1", ":s", "FOO"]` with return address
`1` pending does not leave the state unchanged with the pointer advanced
by one: the pointer becomes `1` (not `3 + 1`) and the Call Stack is popped
from `[1]` to `[]`. -/
theorem c10_last_line_return_pop :
    stepLine progC10 stC10 3 =
      .next { stC10 with var_table := dictSet stC10.var_table "ERRORLEVEL".toList ['0'],
                         call_stack := [] } 1 [.dispatched 3 "FOO".toList]
    ∧ (1 : Nat) ≠ 3 + 1 ∧ ([] : List Nat) ≠ stC10.call_stack := by
  refine ⟨rfl, by omega, by decide⟩

theorem c10_unrecognized_ignored_witness :
    stepLine progC10 stC10 3 =
      .next { stC10 with var_table := dictSet stC10.var_table "ERRORLEVEL".toList ['0'],
                         call_stack := [] } 1 [.dispatched 3 "FOO".toList] :=
  (c10_unrecognized_ignored progC10 stC10 3 "FOO".toList "FOO".toList [] rfl (by decide)
    (by decide) (by rfl) (by decide) rfl rfl rfl).2 1 [] (by decide) rfl

theorem c5_while_iteration_counts_witness :
    (stepLine (progC5 2) (c5St 2 none [("EOF".toList, 4)] []) 1 =
      .next (c5StW 2 (some (.int (2 : Nat)))) 2 [.whileEval 1 true])
    ∧ (stepLine (progC5 2) (c5StW 0 none) 3 = .next (c5St 0 none c5LT [1]) 1 [])
    ∧ (stepLine (progC5 2) (c5StF none) 3 = .next (c5St 0 none c5LT [1]) 4 [])
    ∧ (stepLine (progC5 2) (c5StF none) 2 = .next (c5StF none) 3 [])
    ∧ (∃ st2 i2, stepLine (progC5 2) (c5StW 1 none) 2
        = .next st2 i2 [.dispatched 2 "DEC".toList])
    ∧ ((Event.dispatched 0 "SET".toList :: c5Trace 2).filter (isCondEvalAt 1)).length = 3
    ∧ ((Event.dispatched 0 "SET".toList :: c5Trace 2).filter (isDispatchedAt 2)).length = 2 := by
  refine ⟨?_, ?_, ?_, ?_, ?_, ?_, ?_⟩
  · exact (c5_while_iteration_counts.1 (progC5 2) (c5St 2 none [("EOF".toList, 4)] []) 1
      "WHILE $c".toList [['2']] ['2'] [] (.int 2) rfl (by decide) (by decide) (by decide)
      (Or.inl rfl) rfl rfl (by decide)).trans (by decide)
  · exact (c5_while_iteration_counts.2.1 (progC5 2) (c5StW 0 none) 3 "WEND".toList [] 1 1 []
      rfl (by decide) (by decide) (by decide) rfl (by decide)).trans (by decide)
  · exact (c5_while_iteration_counts.2.2.1 (progC5 2) (c5StF none) 3 "WEND".toList [] 1 []
      rfl (by decide) (by decide) (by decide) rfl).trans (by decide)
  · exact c5_while_iteration_counts.2.2.2.1 (progC5 2) (c5StF none) 2 "DEC c".toList "DEC".toList
      [['c']] rfl (by decide) (by decide) (by decide) (by decide) rfl
  · exact c5_while_iteration_counts.2.2.2.2.1 (progC5 2) (c5StW 1 none) 2 "DEC c".toList
      "DEC".toList [['c']] (c5StW 0 none) 0 rfl (by decide) (by decide) (by decide)
      (by decide) rfl rfl (by decide)
  · exact (c5_while_iteration_counts.2.2.2.2.2 2).2.2.1
  · exact (c5_while_iteration_counts.2.2.2.2.2 2).2.2.2
